import Mathlib

/-!
Verification of the QF (quadratic funding) program: a shallow embedding of
the processor in src/program/src/processor.rs together with the state records
of src/program/src/state.rs, and theorems about the spec's claims.

Machine integers are modelled as Nat with explicit bounds: every checked
operation of the source (checked_add / checked_sub / checked_mul /
checked_div on u64 and U256) becomes an Option-valued function that is none
exactly where the source operation returns None (and the source's .unwrap()
then aborts the instruction).  Account records live in association lists
keyed by account addresses (Nat stands for Pubkey); an uninitialized record
is an absent key.  External collaborators (the token transfer primitive, the
fixed-point square root of the spl_math dependency) are modelled at the
interface the spec gives for them.
-/

/-- The fixed-point scale of the spl_math PreciseNumber dependency:
ONE = 10^12.  A PreciseNumber with inner value v represents v / ONE. -/
def ONE : Nat := 1000000000000

/-- First value that no longer fits in a u64. -/
def U64LIM : Nat := 2 ^ 64

/-- First value that no longer fits in a U256. -/
def U256LIM : Nat := 2 ^ 256

/-- Largest u128 value. -/
def U128MAX : Nat := 2 ^ 128 - 1

/-- u64 checked_add. -/
def chkAdd64 (a b : Nat) : Option Nat :=
  if a + b < U64LIM then some (a + b) else none

/-- U256 checked_add. -/
def chkAdd256 (a b : Nat) : Option Nat :=
  if a + b < U256LIM then some (a + b) else none

/-- checked_sub (u64 and U256 alike: none exactly on underflow). -/
def chkSub (a b : Nat) : Option Nat :=
  if b ≤ a then some (a - b) else none

/-- U256 checked_mul. -/
def chkMul256 (a b : Nat) : Option Nat :=
  if a * b < U256LIM then some (a * b) else none

/-- checked_div: none exactly when the divisor is zero. -/
def chkDiv (a b : Nat) : Option Nat :=
  if b = 0 then none else some (a / b)

/-- One Newton (Babylonian) step loop for the integer square root, with
explicit fuel so that it is structurally recursive and kernel-evaluable.
The guess strictly decreases at every recursive call, so any fuel of at
least the initial guess reaches the fixed point. -/
def sqrtIter : Nat → Nat → Nat → Nat
  | 0, _, g => g
  | fuel + 1, n, g =>
    let next := (g + n / g) / 2
    if next < g then sqrtIter fuel n next else g

/-- Integer square root (floor), by Newton iteration from the guess n / 2. -/
def isqrt (n : Nat) : Nat :=
  if n ≤ 1 then n else sqrtIter n n (n / 2)

/-- Modelled from the spec: the fixed-point square-root primitive of the
external spl_math dependency (PreciseNumber::sqrt), which the spec scopes
out as a reusable numeric primitive with input and output both scaled
integers (design note: sqrt of 4 in fixed point is 2 in fixed point).
On the inner value v (representing v / ONE) the exact square root value is
isqrt (v * ONE), since sqrt (v / ONE) * ONE = sqrt (v * ONE).  The source
routine returns None above its maximum base, PreciseNumber::new(u128::MAX),
whose inner value is U128MAX * ONE; below that it approximates this exact
value by Newton iteration. -/
def pnSqrtOpt (v : Nat) : Option Nat :=
  if v ≤ U128MAX * ONE then some (isqrt (v * ONE)) else none

/-- PreciseNumber::checked_mul of the spl_math dependency, on inner values:
round-corrected product descaled by ONE, with a coarser fallback when the
raw product overflows U256. -/
def pnCheckedMul (a b : Nat) : Option Nat :=
  if a * b < U256LIM then
    (chkAdd256 (a * b) (ONE / 2)).bind (fun x => chkDiv x ONE)
  else if b ≤ a then chkMul256 (a / ONE) b
  else chkMul256 (b / ONE) a

/-- The squaring loop of PreciseNumber::checked_pow: repeatedly square the
base, multiplying it into the result when the current exponent is odd, until
the exponent reaches zero.  Fuel makes it structurally recursive; fuel e is
enough since the exponent at least halves each step. -/
def pnPowLoop : Nat → Nat → Nat → Nat → Option Nat
  | 0, _, res, _ => some res
  | fuel + 1, sb, res, e =>
    if e = 0 then some res
    else
      match pnCheckedMul sb sb with
      | none => none
      | some sb' =>
        match (if e % 2 ≠ 0 then pnCheckedMul res sb' else some res) with
        | none => none
        | some res' => pnPowLoop fuel sb' res' (e / 2)

/-- PreciseNumber::checked_pow on inner values: the result starts as the
value itself for an odd exponent (ONE, i.e. fixed-point 1, for an even one)
and the loop runs on exponent / 2.  In particular checked_pow x 1 = some x:
the vote handler calls it with exponent 1. -/
def pnCheckedPow (x e : Nat) : Option Nat :=
  pnPowLoop e x (if e % 2 = 0 then ONE else x) (e / 2)

/-- Round status (state.rs): the lifecycle enum. -/
inductive RoundStatus
  | Uninitialized
  | Ongoing
  | Finished
deriving DecidableEq, Repr

/-- Round record (state.rs).  Pubkey fields are Nat account identities. -/
structure Round where
  status : RoundStatus
  ratio : Nat
  fund : Nat
  fee : Nat
  projectNumber : Nat
  vault : Nat
  owner : Nat
  area : Nat
  totalArea : Nat
  topArea : Nat
  minArea : Nat
  minAreaP : Nat
deriving DecidableEq, Repr

/-- Project record (state.rs).  The round back-reference doubles as the
initialization sentinel in the source; here an uninitialized project is an
absent key instead. -/
structure Project where
  round : Nat
  owner : Nat
  withdraw : Bool
  votes : Nat
  area : Nat
  areaSqrt : Nat
deriving DecidableEq, Repr

/-- Voter record (state.rs).  is_initialized is modelled by key presence. -/
structure Voter where
  votes : Nat
  votesSqrt : Nat
deriving DecidableEq, Repr

/-- First-match lookup in an association list (the account store). -/
def lookupA {κ α : Type} [DecidableEq κ] (k : κ) : List (κ × α) → Option α
  | [] => none
  | e :: rest => if e.1 = k then some e.2 else lookupA k rest

/-- Overwrite every entry of a key with a new value (in-place record write
back to an existing account). -/
def setA {κ α : Type} [DecidableEq κ] (k : κ) (v : α) (l : List (κ × α)) :
    List (κ × α) :=
  l.map (fun e => if e.1 = k then (k, v) else e)

/-- Errors surfaced by the handlers: the QFError variants of the source
plus the ProgramError cases the handlers raise.  A source .unwrap() on a
checked operation aborts the instruction; that abort is ArithmeticError. -/
inductive Err
  | NotInitialized
  | AlreadyInitialized
  | RoundStatusError
  | VaultMismatch
  | RoundMismatch
  | OwnerMismatch
  | ProjectAlreadyWithdraw
  | MissingSignature
  | ArithmeticError
  | TransferFailed
deriving DecidableEq, Repr

/-- The world: all program accounts (keyed records) plus the token balances
of the external token program.  One instruction mutates it atomically or
not at all, which the Except result captures. -/
structure World where
  rounds : List (Nat × Round)
  projects : List (Nat × Project)
  voters : List ((Nat × Nat) × Voter)
  balances : List (Nat × Nat)
deriving DecidableEq, Repr

/-- Modelled from the spec: the external token-transfer collaborator, an
atomic conditional balance transfer that fails when the source account is
missing, underfunded, or the destination credit overflows u64 (spl_token
transfer semantics at the interface the spec specifies). -/
def transferTok (w : World) (src dst amount : Nat) : Except Err World :=
  match lookupA src w.balances with
  | none => .error .TransferFailed
  | some sb =>
    if sb < amount then .error .TransferFailed
    else
      match lookupA dst (setA src (sb - amount) w.balances) with
      | none => .error .TransferFailed
      | some db =>
        if db + amount < U64LIM then
          .ok { w with balances := setA dst (db + amount) (setA src (sb - amount) w.balances) }
        else .error .TransferFailed

/-- An empty program state over given externally minted token balances. -/
def initWorld (bal : List (Nat × Nat)) : World :=
  { rounds := [], projects := [], voters := [], balances := bal }

/-- process_start_round: the target round must be uninitialized; the new
record takes status Ongoing, the given ratio, the vault's current token
balance as fund, the given owner and vault, and area zero, all remaining
fields staying at the zero the fresh account holds.  The program-id, size,
rent-exemption and vault-authority-derivation checks are the external
account plumbing the spec scopes out and are not modelled. -/
def processStartRound (w : World) (roundKey ownerKey vaultKey ratio : Nat) :
    Except Err World :=
  match lookupA roundKey w.rounds with
  | some _ => .error .AlreadyInitialized
  | none =>
    match lookupA vaultKey w.balances with
    | none => .error .NotInitialized
    | some vaultAmount =>
      let round : Round :=
        { status := .Ongoing, ratio := ratio, fund := vaultAmount, fee := 0
          projectNumber := 0, vault := vaultKey, owner := ownerKey
          area := 0, totalArea := 0, topArea := 0, minArea := 0, minAreaP := 0 }
      .ok { w with rounds := (roundKey, round) :: w.rounds }

/-- process_donate: round must exist and be Ongoing, the destination must be
the round's vault; then the external transfer moves amount into the vault
and the fund grows by checked u64 addition. -/
def processDonate (w : World) (roundKey fromKey toKey amount : Nat) :
    Except Err World :=
  match lookupA roundKey w.rounds with
  | none => .error .NotInitialized
  | some round =>
    if round.status ≠ RoundStatus.Ongoing then .error .RoundStatusError
    else if toKey ≠ round.vault then .error .VaultMismatch
    else
      match transferTok w fromKey toKey amount with
      | .error e => .error e
      | .ok w1 =>
        match chkAdd64 round.fund amount with
        | none => .error .ArithmeticError
        | some fund' =>
          .ok { w1 with rounds := setA roundKey { round with fund := fund' } w1.rounds }

/-- process_register_project: round Ongoing, target project uninitialized;
the new project stores the round key, the owner, withdraw false, zero votes
and zero area (area_sqrt keeps the fresh account's zero), and the round's
project_number grows by checked u64 addition. -/
def processRegisterProject (w : World) (projectKey roundKey ownerKey : Nat) :
    Except Err World :=
  match lookupA roundKey w.rounds with
  | none => .error .NotInitialized
  | some round =>
    if round.status ≠ RoundStatus.Ongoing then .error .RoundStatusError
    else
      match lookupA projectKey w.projects with
      | some _ => .error .AlreadyInitialized
      | none =>
        match chkAdd64 round.projectNumber 1 with
        | none => .error .ArithmeticError
        | some n' =>
          let project : Project :=
            { round := roundKey, owner := ownerKey, withdraw := false
              votes := 0, area := 0, areaSqrt := 0 }
          .ok { w with
                rounds := setA roundKey { round with projectNumber := n' } w.rounds
                projects := (projectKey, project) :: w.projects }

/-- process_init_voter: the project must exist; the voter record for the
(project, contributor) pair — whose address the source derives from exactly
those two identities, here the pair itself is the key — must not yet exist,
and is created with zero votes and zero votes_sqrt.  The lamport-funding,
allocation and assignment plumbing is external and not modelled. -/
def processInitVoter (w : World) (projectKey fromKey : Nat) : Except Err World :=
  match lookupA projectKey w.projects with
  | none => .error .NotInitialized
  | some _ =>
    match lookupA (projectKey, fromKey) w.voters with
    | some _ => .error .AlreadyInitialized
    | none =>
      .ok { w with voters := ((projectKey, fromKey), Voter.mk 0 0) :: w.voters }

/-- The arithmetic core of process_vote, lines 323-368: remove the
project's area from the round total; take the fixed-point square root of
the voter's new cumulative contribution; update the project's running root
sum by subtracting the voter's old root and adding the new one; derive the
project's area by checked_pow with exponent 1; update vote counters; derive
the descaled votes measure and refresh the round's top/min extrema; add the
project's new area back into the round total and descale it into
total_area.  Every operation is checked; none aborts the instruction. -/
def voteMath (round : Round) (project : Project) (voter : Voter)
    (projectKey amount : Nat) : Option (Round × Project × Voter) :=
  do
  let area1 ← chkSub round.area project.area
  let cum ← chkAdd64 voter.votes amount
  let scaled ← chkMul256 cum ONE
  let newVotesSqrt ← pnSqrtOpt scaled
  let s1 ← chkSub project.areaSqrt voter.votesSqrt
  let areaSqrt' ← chkAdd256 s1 newVotesSqrt
  let area' ← pnCheckedPow areaSqrt' 1
  let pvotes' ← chkAdd64 project.votes amount
  let project' := { project with area := area', areaSqrt := areaSqrt', votes := pvotes' }
  let voter' := { voter with votes := cum, votesSqrt := newVotesSqrt }
  let dvotes ← chkDiv area' ONE
  let top' := if dvotes > round.topArea then dvotes else round.topArea
  let minPair :=
    if round.minArea = 0 ∨ dvotes < round.minArea then (dvotes, projectKey)
    else if round.minAreaP = projectKey then (dvotes, round.minAreaP)
    else (round.minArea, round.minAreaP)
  let areaF ← chkAdd256 area1 area'
  let total' ← chkDiv areaF ONE
  some ({ round with area := areaF, totalArea := total', topArea := top'
                     minArea := minPair.1, minAreaP := minPair.2 },
        project', voter')

/-- process_vote: round Ongoing, destination is the round's vault, the
project belongs to this round, the voter record is the one derived from the
(project, contributor) pair; then the external transfer moves amount into
the vault and the arithmetic core updates all three records. -/
def processVote (w : World) (roundKey projectKey fromKey toKey amount : Nat) :
    Except Err World :=
  match lookupA roundKey w.rounds with
  | none => .error .NotInitialized
  | some round =>
    if round.status ≠ RoundStatus.Ongoing then .error .RoundStatusError
    else if toKey ≠ round.vault then .error .VaultMismatch
    else
      match lookupA projectKey w.projects with
      | none => .error .NotInitialized
      | some project =>
        if project.round ≠ roundKey then .error .RoundMismatch
        else
          match lookupA (projectKey, fromKey) w.voters with
          | none => .error .NotInitialized
          | some voter =>
            match transferTok w fromKey toKey amount with
            | .error e => .error e
            | .ok w1 =>
              match voteMath round project voter projectKey amount with
              | none => .error .ArithmeticError
              | some (round', project', voter') =>
                .ok { w1 with
                      rounds := setA roundKey round' w1.rounds
                      projects := setA projectKey project' w1.projects
                      voters := setA (projectKey, fromKey) voter' w1.voters }

/-- The capping transform of process_withdraw, lines 432-474: when the
round's total_area is positive, compute the average per-project area a, the
spread d = (top - a) + (a - min) * ratio, and when d is positive the shrink
factor s = (ratio - 1) * a / d (integer division); when s < 1 remap votes
toward a: above average a + s * (votes - a), otherwise
votes + (a - votes) * (1 - s).  All operations are checked. -/
def cappedVotes (round : Round) (votes : Nat) : Option Nat :=
  if round.totalArea > 0 then do
    let a ← chkDiv round.totalArea round.projectNumber
    let d1 ← chkSub round.topArea a
    let d2 ← chkSub a round.minArea
    let d3 ← chkMul256 d2 round.ratio
    let d ← chkAdd256 d1 d3
    if d > 0 then do
      let r1 ← chkSub round.ratio 1
      let ra ← chkMul256 r1 a
      let s ← chkDiv ra d
      if s < 1 then
        if votes > a then do
          let e1 ← chkSub votes a
          let se ← chkMul256 s e1
          chkAdd256 a se
        else do
          let e1 ← chkSub a votes
          let em ← chkMul256 e1 (1 - s)
          chkAdd256 votes em
      else some votes
    else some votes
  else some votes

/-- The payout block of process_withdraw, lines 419-492: descale the
project's area into its votes measure, cap it, add the fund's proportional
share fund * votes / total_area — this division is not behind the
total_area > 0 guard — onto the project's raw votes, then split off the 5
percent fee. -/
def calAmount (round : Round) (project : Project) : Option (Nat × Nat) := do
  let votes0 ← chkDiv project.area ONE
  let votes ← cappedVotes round votes0
  let fv ← chkMul256 round.fund votes
  let share ← chkDiv fv round.totalArea
  let amount1 ← chkAdd256 project.votes share
  let a5 ← chkMul256 amount1 5
  let fee ← chkDiv a5 100
  let amt ← chkSub amount1 fee
  some (amt, fee)

/-- process_withdraw: round Finished, project belongs to the round and not
yet withdrawn, the project owner signed; compute the capped payout, cast it
to u64 (the source's as_u64 panics above u64), transfer it from the given
vault account, mark the project withdrawn and accumulate the fee (also cast
to u64) into the round. -/
def processWithdraw (w : World)
    (roundKey vaultKey projectKey ownerKey toKey : Nat) (ownerSigned : Bool) :
    Except Err World :=
  match lookupA roundKey w.rounds with
  | none => .error .NotInitialized
  | some round =>
    if round.status ≠ RoundStatus.Finished then .error .RoundStatusError
    else
      match lookupA projectKey w.projects with
      | none => .error .NotInitialized
      | some project =>
        if project.round ≠ roundKey then .error .RoundMismatch
        else if project.withdraw then .error .ProjectAlreadyWithdraw
        else if ¬ ownerSigned then .error .MissingSignature
        else if project.owner ≠ ownerKey then .error .OwnerMismatch
        else
          match calAmount round project with
          | none => .error .ArithmeticError
          | some (amt, fee) =>
            if amt ≥ U64LIM then .error .ArithmeticError
            else
              match transferTok w vaultKey toKey amt with
              | .error e => .error e
              | .ok w1 =>
                if fee ≥ U64LIM then .error .ArithmeticError
                else
                  match chkAdd64 round.fee fee with
                  | none => .error .ArithmeticError
                  | some fee' =>
                    .ok { w1 with
                          rounds := setA roundKey { round with fee := fee' } w1.rounds
                          projects :=
                            setA projectKey { project with withdraw := true } w1.projects }

/-- process_end_round: round Ongoing, caller is the round owner and signed;
the status becomes Finished. -/
def processEndRound (w : World) (roundKey ownerKey : Nat) (ownerSigned : Bool) :
    Except Err World :=
  match lookupA roundKey w.rounds with
  | none => .error .NotInitialized
  | some round =>
    if round.status ≠ RoundStatus.Ongoing then .error .RoundStatusError
    else if ownerKey ≠ round.owner then .error .OwnerMismatch
    else if ¬ ownerSigned then .error .MissingSignature
    else .ok { w with rounds := setA roundKey { round with status := .Finished } w.rounds }

/-- process_withdraw_fee: round Finished, caller is the round owner and
signed, the supplied vault is the round's vault; the accumulated fee is
transferred out of the vault and reset to zero. -/
def processWithdrawFee (w : World) (roundKey ownerKey vaultKey toKey : Nat)
    (ownerSigned : Bool) : Except Err World :=
  match lookupA roundKey w.rounds with
  | none => .error .NotInitialized
  | some round =>
    if round.status ≠ RoundStatus.Finished then .error .RoundStatusError
    else if ownerKey ≠ round.owner then .error .OwnerMismatch
    else if ¬ ownerSigned then .error .MissingSignature
    else if vaultKey ≠ round.vault then .error .VaultMismatch
    else
      match transferTok w vaultKey toKey round.fee with
      | .error e => .error e
      | .ok w1 =>
        .ok { w1 with rounds := setA roundKey { round with fee := 0 } w1.rounds }

/-- The arithmetic core of process_ban_project, lines 638-647: checked
subtraction of ban_amount from the project's area, recomputation of its
area_sqrt as the fixed-point square root of the descaled reduced area
rescaled by 10^6, and checked subtraction of ban_amount from the round's
area. -/
def banMath (round : Round) (project : Project) (banAmount : Nat) :
    Option (Round × Project) :=
  do
  let area' ← chkSub project.area banAmount
  let dv ← chkDiv area' ONE
  let sq ← pnSqrtOpt dv
  let areaSqrt' ← chkMul256 sq 1000000
  let rarea' ← chkSub round.area banAmount
  some ({ round with area := rarea' },
        { project with area := area', areaSqrt := areaSqrt' })

/-- process_ban_project: round Ongoing, caller is the round owner and
signed, the project merely exists — the handler never compares
project.round with the round being mutated — then the arithmetic core
reduces both areas and recomputes the project's root. -/
def processBanProject (w : World) (roundKey ownerKey projectKey : Nat)
    (ownerSigned : Bool) (banAmount : Nat) : Except Err World :=
  match lookupA roundKey w.rounds with
  | none => .error .NotInitialized
  | some round =>
    if round.status ≠ RoundStatus.Ongoing then .error .RoundStatusError
    else if ownerKey ≠ round.owner then .error .OwnerMismatch
    else if ¬ ownerSigned then .error .MissingSignature
    else
      match lookupA projectKey w.projects with
      | none => .error .NotInitialized
      | some project =>
        match banMath round project banAmount with
        | none => .error .ArithmeticError
        | some (round', project') =>
          .ok { w with
                rounds := setA roundKey round' w.rounds
                projects := setA projectKey project' w.projects }

/-- The nine operations of the instruction set, with the account keys each
handler names and the signer flags the handlers test. -/
inductive Op
  | startRound (roundKey ownerKey vaultKey ratio : Nat)
  | donate (roundKey fromKey toKey amount : Nat)
  | registerProject (projectKey roundKey ownerKey : Nat)
  | initVoter (projectKey fromKey : Nat)
  | vote (roundKey projectKey fromKey toKey amount : Nat)
  | withdraw (roundKey vaultKey projectKey ownerKey toKey : Nat) (ownerSigned : Bool)
  | endRound (roundKey ownerKey : Nat) (ownerSigned : Bool)
  | withdrawFee (roundKey ownerKey vaultKey toKey : Nat) (ownerSigned : Bool)
  | banProject (roundKey ownerKey projectKey : Nat) (ownerSigned : Bool) (banAmount : Nat)
deriving DecidableEq, Repr

/-- The dispatcher: route one decoded instruction to its handler. -/
def applyOp (w : World) : Op → Except Err World
  | .startRound rk ok vk ratio => processStartRound w rk ok vk ratio
  | .donate rk fk tk amount => processDonate w rk fk tk amount
  | .registerProject pk rk ok => processRegisterProject w pk rk ok
  | .initVoter pk fk => processInitVoter w pk fk
  | .vote rk pk fk tk amount => processVote w rk pk fk tk amount
  | .withdraw rk vk pk ok tk s => processWithdraw w rk vk pk ok tk s
  | .endRound rk ok s => processEndRound w rk ok s
  | .withdrawFee rk ok vk tk s => processWithdrawFee w rk ok vk tk s
  | .banProject rk ok pk s amount => processBanProject w rk ok pk s amount

/-- Run a sequence of instructions, stopping at the first failure. -/
def applyOps (w : World) : List Op → Except Err World
  | [] => .ok w
  | op :: rest =>
    match applyOp w op with
    | .error e => .error e
    | .ok w' => applyOps w' rest

instance {ε α : Type} [DecidableEq ε] [DecidableEq α] : DecidableEq (Except ε α) :=
  fun a b =>
  match a, b with
  | .ok x, .ok y => if h : x = y then .isTrue (by simp [h]) else .isFalse (by simp [h])
  | .error x, .error y => if h : x = y then .isTrue (by simp [h]) else .isFalse (by simp [h])
  | .ok _, .error _ => .isFalse (by simp)
  | .error _, .ok _ => .isFalse (by simp)

/-- A store has no duplicate keys (every account address holds one record). -/
def NodupKeys {κ α : Type} (l : List (κ × α)) : Prop :=
  (l.map Prod.fst).Nodup

/-- Sum a per-entry measure over a store. -/
def sumBy {κ α : Type} (f : κ × α → Nat) (l : List (κ × α)) : Nat :=
  (l.map f).sum

/-- The total area of the projects belonging to round rk. -/
def sumProjArea (rk : Nat) (ps : List (Nat × Project)) : Nat :=
  sumBy (fun e => if e.2.round = rk then e.2.area else 0) ps

/-- The fixed-point sum, over the voters of project pk, of the fixed-point
integer square root of each voter's cumulative contribution — the
non-incremental recomputation the spec describes for area_sqrt. -/
def sumVoterSqrt (pk : Nat) (vs : List ((Nat × Nat) × Voter)) : Nat :=
  sumBy (fun e => if e.1.1 = pk then isqrt (e.2.votes * ONE * ONE) else 0) vs

/-- Every round's stored area equals the summed area of its projects. -/
def AreaInv (w : World) : Prop :=
  ∀ e ∈ w.rounds, e.2.area = sumProjArea e.1 w.projects

/-- Every project's round back-reference names an existing round. -/
def RoundRef (w : World) : Prop :=
  ∀ e ∈ w.projects, (lookupA e.2.round w.rounds).isSome = true

/-- The structural world invariant the reachability argument maintains. -/
def WorldInv (w : World) : Prop :=
  NodupKeys w.rounds ∧ NodupKeys w.projects ∧ RoundRef w ∧ AreaInv w

/-- The root-sum invariant of project pk: voter keys are unique, every
voter's stored votes_sqrt is the fixed-point root of its cumulative votes,
and the project's area_sqrt is the non-incremental sum of those roots. -/
def SqrtInv (pk : Nat) (w : World) : Prop :=
  NodupKeys w.voters ∧
  (∀ e ∈ w.voters, e.1.1 = pk → e.2.votesSqrt = isqrt (e.2.votes * ONE * ONE)) ∧
  (∀ e ∈ w.projects, e.1 = pk → e.2.areaSqrt = sumVoterSqrt pk w.voters)

/-- Whether an operation is a Vote on project pk or an InitVoter for it. -/
def isVoteOpOn (pk : Nat) : Op → Bool
  | .vote _ pk' _ _ _ => pk' == pk
  | .initVoter pk' _ => pk' == pk
  | _ => false

/-- The status of round k in world w (an absent record is Uninitialized). -/
def roundStatus (w : World) (k : Nat) : RoundStatus :=
  match lookupA k w.rounds with
  | none => .Uninitialized
  | some r => r.status

/-- Position of a status along Uninitialized → Ongoing → Finished. -/
def statusRank : RoundStatus → Nat
  | .Uninitialized => 0
  | .Ongoing => 1
  | .Finished => 2

/-- A BanProject whose target project belongs to the round it names; every
other operation is unconstrained (they all enforce their own bindings). -/
def goodOp (w : World) : Op → Bool
  | .banProject rk _ pk _ _ =>
    match lookupA pk w.projects with
    | some p => p.round == rk
    | none => true
  | _ => true

/-- Reachability by the nine operations from a start world, every
BanProject step targeting a project of its own round. -/
inductive ReachG : World → World → Prop
  | refl (w : World) : ReachG w w
  | step {w w' w'' : World} {op : Op} : ReachG w w' → goodOp w' op = true →
      applyOp w' op = .ok w'' → ReachG w w''

/-- Token accounts of the running examples: two vaults and two voter
holders minted externally. -/
def exBal : List (Nat × Nat) := [(11, 0), (12, 0), (31, 100), (32, 100)]

/-- The empty program state over those balances. -/
def exW0 : World := initWorld exBal

/-- One round (key 1, owner 5, vault 11), one project (key 21, owner 6),
one voter (holder 31) casting a vote of 4 tokens. -/
def voteSetup : List Op :=
  [.startRound 1 5 11 2, .registerProject 21 1 6, .initVoter 21 31,
   .vote 1 21 31 11 4]

/-- Two rounds (keys 1 and 2, both owned by 5), a project in each (21 in
round 1, 22 in round 2), and a vote of 4 tokens on each project. -/
def exSetup : List Op :=
  [.startRound 1 5 11 2, .startRound 2 5 12 2,
   .registerProject 21 1 6, .registerProject 22 2 6,
   .initVoter 21 31, .initVoter 22 32,
   .vote 1 21 31 11 4, .vote 2 22 32 12 4]

/-- A BanProject naming round 1 but project 22, which belongs to round 2. -/
def exBan : Op := .banProject 1 5 22 true (10 ^ 12)

/-- A finished round that received no votes at all (total_area = 0) while
its project holds raw votes: the Withdraw edge case of the spec. -/
def c2W : World :=
  { rounds := [(1, { status := .Finished, ratio := 2, fund := 50, fee := 0
                     projectNumber := 1, vault := 11, owner := 5, area := 0
                     totalArea := 0, topArea := 0, minArea := 0, minAreaP := 0 })]
    projects := [(21, { round := 1, owner := 6, withdraw := false, votes := 100
                        area := 0, areaSqrt := 0 })]
    voters := []
    balances := [(11, 50), (13, 0)] }

/-- A finished round with ratio 1, three projects' worth of total area 30
(average 10) and a top/min spread of 20 against 5. -/
def c3R : Round :=
  { status := .Finished, ratio := 1, fund := 1000, fee := 0, projectNumber := 3
    vault := 11, owner := 5, area := 30 * ONE, totalArea := 30, topArea := 20
    minArea := 5, minAreaP := 99 }

/-- A project of that round holding a votes measure of 20, above the
average 10. -/
def c3P : Project :=
  { round := 1, owner := 6, withdraw := false, votes := 50, area := 20 * ONE
    areaSqrt := 0 }

/-- The ratio-1 withdrawal scenario world. -/
def c3W : World :=
  { rounds := [(1, c3R)], projects := [(21, c3P)], voters := []
    balances := [(11, 1000), (13, 0)] }

/-- An ongoing round with one fresh project and one registered voter,
ready for a first vote: the witness scenario for the root-sum invariant. -/
def c4W0 : World :=
  { rounds := [(1, { status := .Ongoing, ratio := 2, fund := 0, fee := 0
                     projectNumber := 1, vault := 11, owner := 5, area := 0
                     totalArea := 0, topArea := 0, minArea := 0, minAreaP := 0 })]
    projects := [(21, { round := 1, owner := 6, withdraw := false, votes := 0
                        area := 0, areaSqrt := 0 })]
    voters := [((21, 31), Voter.mk 0 0)]
    balances := [(11, 0), (31, 100)] }

/-- One vote of 9 tokens by holder 31 on project 21. -/
def c4Ops : List Op := [.vote 1 21 31 11 9]

/-- The world after that vote. -/
def c4Res : World := (applyOps c4W0 c4Ops).toOption.getD c4W0

/-- The world after starting round 1 from the example balances. -/
def c5W1 : World :=
  (applyOp exW0 (.startRound 1 5 11 2)).toOption.getD exW0

/-- The world after additionally registering project 21 in round 1. -/
def c5W2 : World :=
  (applyOp c5W1 (.registerProject 21 1 6)).toOption.getD c5W1

/-- A finished round next to an ongoing one, to exercise status gating. -/
def c6W : World :=
  { rounds := [(1, { status := .Finished, ratio := 2, fund := 10, fee := 0
                     projectNumber := 0, vault := 11, owner := 5, area := 0
                     totalArea := 0, topArea := 0, minArea := 0, minAreaP := 0 }),
               (2, { status := .Ongoing, ratio := 2, fund := 0, fee := 0
                     projectNumber := 0, vault := 12, owner := 5, area := 0
                     totalArea := 0, topArea := 0, minArea := 0, minAreaP := 0 })]
    projects := [], voters := [], balances := [(11, 50), (12, 0)] }

/-- A finished round with one votable project and enough vault balance for
a full withdrawal: the double-withdraw scenario. -/
def c7W : World :=
  { rounds := [(1, { status := .Finished, ratio := 2, fund := 100, fee := 0
                     projectNumber := 1, vault := 11, owner := 5, area := 2 * ONE
                     totalArea := 2, topArea := 2, minArea := 2, minAreaP := 21 })]
    projects := [(21, { round := 1, owner := 6, withdraw := false, votes := 4
                        area := 2 * ONE, areaSqrt := 2 * ONE })]
    voters := []
    balances := [(11, 200), (13, 0)] }

/-- The first, successful withdrawal of the double-withdraw scenario. -/
def c7Op : Op := .withdraw 1 11 21 6 13 true

/-- The world after that first withdrawal. -/
def c7Res : World := (applyOp c7W c7Op).toOption.getD c7W

/-- A finished round holding an accumulated fee of 7 in its vault. -/
def c8W : World :=
  { rounds := [(1, { status := .Finished, ratio := 2, fund := 100, fee := 7
                     projectNumber := 1, vault := 11, owner := 5, area := 0
                     totalArea := 0, topArea := 0, minArea := 0, minAreaP := 0 })]
    projects := [], voters := [], balances := [(11, 50), (13, 0)] }

/-- An ongoing round whose single project carries area 2 * ONE, the ban
scenario. -/
def c9W : World :=
  { rounds := [(1, { status := .Ongoing, ratio := 2, fund := 0, fee := 0
                     projectNumber := 1, vault := 11, owner := 5, area := 2 * ONE
                     totalArea := 2, topArea := 2, minArea := 2, minAreaP := 21 })]
    projects := [(21, { round := 1, owner := 6, withdraw := false, votes := 4
                        area := 2 * ONE, areaSqrt := 2 * ONE })]
    voters := [], balances := [(11, 0)] }

/-- The world after ending the ongoing round 2 of the gating scenario. -/
def c6Res : World := (applyOp c6W (.endRound 2 5 true)).toOption.getD c6W

/-- An ongoing round 1 and a finished round 2 beside a project whose round
back-reference names neither (77): the round-binding scenario. -/
def c10W : World :=
  { rounds := [(1, { status := .Ongoing, ratio := 2, fund := 0, fee := 0
                     projectNumber := 0, vault := 11, owner := 5, area := 0
                     totalArea := 0, topArea := 0, minArea := 0, minAreaP := 0 }),
               (2, { status := .Finished, ratio := 2, fund := 0, fee := 0
                     projectNumber := 0, vault := 12, owner := 5, area := 0
                     totalArea := 0, topArea := 0, minArea := 0, minAreaP := 0 })]
    projects := [(21, { round := 77, owner := 6, withdraw := false, votes := 0
                        area := 0, areaSqrt := 0 })]
    voters := [], balances := [] }

theorem lookupA_cons' {κ α : Type} [DecidableEq κ] (k : κ) (e : κ × α) (l : List (κ × α)) :
    lookupA k (e :: l) = if e.1 = k then some e.2 else lookupA k l := rfl

theorem setA_cons {κ α : Type} [DecidableEq κ] (k : κ) (v : α) (e : κ × α) (l : List (κ × α)) :
    setA k v (e :: l) = (if e.1 = k then (k, v) else e) :: setA k v l := rfl

theorem lookupA_mem {κ α : Type} [DecidableEq κ] {k : κ} {v : α} {l : List (κ × α)}
    (h : lookupA k l = some v) : (k, v) ∈ l := by
  induction l with
  | nil => simp [lookupA] at h
  | cons e rest ih =>
    rw [lookupA_cons'] at h
    by_cases he : e.1 = k
    · rw [if_pos he, Option.some.injEq] at h
      have hev : e = (k, v) := by cases e; simp_all
      rw [← hev]
      exact List.mem_cons_self e rest
    · rw [if_neg he] at h
      exact List.mem_cons_of_mem _ (ih h)

theorem lookupA_eq_none {κ α : Type} [DecidableEq κ] {k : κ} {l : List (κ × α)} :
    lookupA k l = none ↔ k ∉ l.map Prod.fst := by
  induction l with
  | nil => simp [lookupA]
  | cons e rest ih =>
    rw [lookupA_cons']
    by_cases he : e.1 = k
    · simp [he]
    · rw [if_neg he, ih]
      simp only [List.map_cons, List.mem_cons]
      constructor
      · intro h hx
        cases hx with
        | inl hh => exact he hh.symm
        | inr hh => exact h hh
      · intro h hx
        exact h (Or.inr hx)

theorem lookupA_setA_self {κ α : Type} [DecidableEq κ] (k : κ) (v : α) (l : List (κ × α)) :
    lookupA k (setA k v l) = (lookupA k l).map (fun _ => v) := by
  induction l with
  | nil => simp [lookupA, setA]
  | cons e rest ih =>
    rw [setA_cons]
    by_cases he : e.1 = k
    · rw [if_pos he, lookupA_cons', lookupA_cons', if_pos he]
      simp
    · rw [if_neg he, lookupA_cons', lookupA_cons', if_neg he, if_neg he, ih]

theorem lookupA_setA_ne {κ α : Type} [DecidableEq κ] {k k' : κ} (h : k' ≠ k) (v : α)
    (l : List (κ × α)) : lookupA k' (setA k v l) = lookupA k' l := by
  induction l with
  | nil => simp [lookupA, setA]
  | cons e rest ih =>
    rw [setA_cons]
    by_cases he : e.1 = k
    · rw [if_pos he, lookupA_cons', lookupA_cons']
      have h1 : ¬ (k = k') := fun hh => h hh.symm
      have h2 : ¬ (e.1 = k') := by rw [he]; exact h1
      rw [if_neg h1, if_neg h2, ih]
    · rw [if_neg he, lookupA_cons', lookupA_cons', ih]

theorem keys_setA {κ α : Type} [DecidableEq κ] (k : κ) (v : α) (l : List (κ × α)) :
    (setA k v l).map Prod.fst = l.map Prod.fst := by
  induction l with
  | nil => rfl
  | cons e rest ih =>
    rw [setA_cons]
    by_cases he : e.1 = k
    · simp [he, ih]
    · simp [he, ih]

theorem nodupKeys_setA {κ α : Type} [DecidableEq κ] {l : List (κ × α)} (k : κ) (v : α)
    (h : NodupKeys l) : NodupKeys (setA k v l) := by
  unfold NodupKeys at h ⊢
  rw [keys_setA]
  exact h

theorem nodupKeys_cons {κ α : Type} [DecidableEq κ] {l : List (κ × α)} {k : κ} (v : α)
    (hk : lookupA k l = none) (h : NodupKeys l) : NodupKeys ((k, v) :: l) := by
  unfold NodupKeys at h ⊢
  rw [List.map_cons, List.nodup_cons]
  exact ⟨lookupA_eq_none.mp hk, h⟩

theorem mem_setA {κ α : Type} [DecidableEq κ] {k : κ} {v : α} {l : List (κ × α)} {e : κ × α}
    (h : e ∈ setA k v l) : (e.1 = k ∧ e.2 = v) ∨ (e.1 ≠ k ∧ e ∈ l) := by
  induction l with
  | nil => simp [setA] at h
  | cons e0 rest ih =>
    rw [setA_cons] at h
    rcases List.mem_cons.mp h with h0 | h0
    · by_cases he : e0.1 = k
      · rw [if_pos he] at h0
        left
        rw [h0]
        exact ⟨rfl, rfl⟩
      · rw [if_neg he] at h0
        right
        rw [h0]
        exact ⟨he, List.mem_cons_self e0 rest⟩
    · rcases ih h0 with h1 | h1
      · exact Or.inl h1
      · exact Or.inr ⟨h1.1, List.mem_cons_of_mem _ h1.2⟩

theorem setA_of_absent {κ α : Type} [DecidableEq κ] {k : κ} {l : List (κ × α)} (v : α)
    (h : lookupA k l = none) : setA k v l = l := by
  induction l with
  | nil => rfl
  | cons e rest ih =>
    rw [lookupA_cons'] at h
    by_cases he : e.1 = k
    · rw [if_pos he] at h
      exact absurd h (by simp)
    · rw [if_neg he] at h
      rw [setA_cons, if_neg he, ih h]

theorem sumBy_cons {κ α : Type} (f : κ × α → Nat) (e : κ × α) (l : List (κ × α)) :
    sumBy f (e :: l) = f e + sumBy f l := by
  simp [sumBy]

theorem sumBy_le_of_mem {κ α : Type} {f : κ × α → Nat} {l : List (κ × α)} {e : κ × α}
    (h : e ∈ l) : f e ≤ sumBy f l := by
  induction l with
  | nil => simp at h
  | cons e0 rest ih =>
    rw [sumBy_cons]
    rcases List.mem_cons.mp h with h0 | h0
    · rw [h0]; exact Nat.le_add_right _ _
    · exact Nat.le_trans (ih h0) (Nat.le_add_left _ _)

theorem sumBy_setA {κ α : Type} [DecidableEq κ] {f : κ × α → Nat} {l : List (κ × α)}
    {k : κ} {v : α} (v' : α) (hnd : NodupKeys l) (hmem : (k, v) ∈ l) :
    sumBy f (setA k v' l) + f (k, v) = sumBy f l + f (k, v') := by
  induction l with
  | nil => simp at hmem
  | cons e rest ih =>
    have hnd' : NodupKeys rest := by
      unfold NodupKeys at hnd ⊢
      exact (List.nodup_cons.mp hnd).2
    have hknotin : e.1 ∉ rest.map Prod.fst := by
      unfold NodupKeys at hnd
      exact (List.nodup_cons.mp hnd).1
    rw [setA_cons]
    rcases List.mem_cons.mp hmem with h0 | h0
    · have he : e.1 = k := by rw [← h0]
      have hev : e = (k, v) := h0.symm ▸ rfl
      rw [if_pos he, sumBy_cons, sumBy_cons]
      have habs : lookupA k rest = none := by
        rw [lookupA_eq_none, ← he]
        exact hknotin
      rw [setA_of_absent v' habs, hev]
      omega
    · have he : e.1 ≠ k := by
        intro hh
        apply hknotin
        rw [hh]
        exact List.mem_map_of_mem Prod.fst h0
      rw [if_neg he, sumBy_cons, sumBy_cons]
      have := ih hnd' h0
      omega

theorem sumProjArea_eq_zero {rk : Nat} {ps : List (Nat × Project)}
    (h : ∀ e ∈ ps, e.2.round ≠ rk) : sumProjArea rk ps = 0 := by
  induction ps with
  | nil => rfl
  | cons e rest ih =>
    unfold sumProjArea at ih ⊢
    rw [sumBy_cons, if_neg (h e (List.mem_cons_self e rest)),
      ih (fun x hx => h x (List.mem_cons_of_mem _ hx))]

theorem transferTok_ok {w w1 : World} {src dst amount : Nat}
    (h : transferTok w src dst amount = .ok w1) :
    w1.rounds = w.rounds ∧ w1.projects = w.projects ∧ w1.voters = w.voters := by
  unfold transferTok at h
  split at h
  · exact absurd h (by simp)
  · split at h
    · exact absurd h (by simp)
    · split at h
      · exact absurd h (by simp)
      · split at h
        · rw [Except.ok.injEq] at h
          rw [← h]
          exact ⟨rfl, rfl, rfl⟩
        · exact absurd h (by simp)

theorem pnCheckedPow_one (x : Nat) : pnCheckedPow x 1 = some x := by
  unfold pnCheckedPow pnPowLoop
  norm_num

theorem chkSub_some {a b c : Nat} (h : chkSub a b = some c) : b ≤ a ∧ c = a - b := by
  unfold chkSub at h
  split at h
  · rw [Option.some.injEq] at h
    exact ⟨by assumption, h.symm⟩
  · exact absurd h (by simp)

theorem chkAdd64_some {a b c : Nat} (h : chkAdd64 a b = some c) :
    a + b < U64LIM ∧ c = a + b := by
  unfold chkAdd64 at h
  split at h
  · rw [Option.some.injEq] at h
    exact ⟨by assumption, h.symm⟩
  · exact absurd h (by simp)

theorem chkAdd256_some {a b c : Nat} (h : chkAdd256 a b = some c) :
    a + b < U256LIM ∧ c = a + b := by
  unfold chkAdd256 at h
  split at h
  · rw [Option.some.injEq] at h
    exact ⟨by assumption, h.symm⟩
  · exact absurd h (by simp)

theorem chkMul256_some {a b c : Nat} (h : chkMul256 a b = some c) :
    a * b < U256LIM ∧ c = a * b := by
  unfold chkMul256 at h
  split at h
  · rw [Option.some.injEq] at h
    exact ⟨by assumption, h.symm⟩
  · exact absurd h (by simp)

theorem chkDiv_some {a b c : Nat} (h : chkDiv a b = some c) : b ≠ 0 ∧ c = a / b := by
  unfold chkDiv at h
  split at h
  · exact absurd h (by simp)
  · rw [Option.some.injEq] at h
    exact ⟨by assumption, h.symm⟩

theorem pnSqrtOpt_some {v c : Nat} (h : pnSqrtOpt v = some c) : c = isqrt (v * ONE) := by
  unfold pnSqrtOpt at h
  split at h
  · rw [Option.some.injEq] at h
    exact h.symm
  · exact absurd h (by simp)

theorem voteMath_ok {round : Round} {project : Project} {voter : Voter}
    {pk amt : Nat} {r' : Round} {p' : Project} {v' : Voter}
    (h : voteMath round project voter pk amt = some (r', p', v')) :
    r'.status = round.status ∧ r'.ratio = round.ratio ∧ r'.fund = round.fund ∧
    r'.fee = round.fee ∧ r'.projectNumber = round.projectNumber ∧
    r'.vault = round.vault ∧ r'.owner = round.owner ∧
    p'.round = project.round ∧ p'.owner = project.owner ∧
    p'.withdraw = project.withdraw ∧ p'.votes = project.votes + amt ∧
    v'.votes = voter.votes + amt ∧
    v'.votesSqrt = isqrt ((voter.votes + amt) * ONE * ONE) ∧
    voter.votesSqrt ≤ project.areaSqrt ∧
    p'.areaSqrt = project.areaSqrt - voter.votesSqrt
      + isqrt ((voter.votes + amt) * ONE * ONE) ∧
    p'.area = p'.areaSqrt ∧
    project.area ≤ round.area ∧
    r'.area = round.area - project.area + p'.area := by
  unfold voteMath at h
  simp only [bind, Option.bind_eq_some, Option.some.injEq, Prod.mk.injEq] at h
  obtain ⟨area1, h1, cum, h2, scaled, h3, nvs, h4, s1, h5, as1, h6, area', h7, pv', h8,
    dv, h9, areaF, h10, total', h11, hr, hp, hv⟩ := h
  obtain ⟨hle1, he1⟩ := chkSub_some h1
  obtain ⟨_, he2⟩ := chkAdd64_some h2
  obtain ⟨_, he3⟩ := chkMul256_some h3
  have he4 := pnSqrtOpt_some h4
  obtain ⟨hle5, he5⟩ := chkSub_some h5
  obtain ⟨_, he6⟩ := chkAdd256_some h6
  rw [pnCheckedPow_one, Option.some.injEq] at h7
  obtain ⟨_, he8⟩ := chkAdd64_some h8
  obtain ⟨_, he10⟩ := chkAdd256_some h10
  subst he1 he2 he3 he4 he5 he6 he8 he10
  subst h7
  rw [← hr, ← hp, ← hv]
  refine ⟨rfl, rfl, rfl, rfl, rfl, rfl, rfl, rfl, rfl, rfl, rfl, rfl, rfl, hle5, rfl, rfl,
    hle1, rfl⟩

theorem banMath_ok {round : Round} {project : Project} {ban : Nat}
    {r' : Round} {p' : Project} (h : banMath round project ban = some (r', p')) :
    ban ≤ project.area ∧ ban ≤ round.area ∧
    r' = { round with area := round.area - ban } ∧
    p' = { project with
      area := project.area - ban,
      areaSqrt := isqrt ((project.area - ban) / ONE * ONE) * 1000000 } := by
  unfold banMath at h
  simp only [bind, Option.bind_eq_some, Option.some.injEq, Prod.mk.injEq] at h
  obtain ⟨area', h1, dv, h2, sq, h3, as1, h4, rarea', h5, hr, hp⟩ := h
  obtain ⟨hle1, he1⟩ := chkSub_some h1
  obtain ⟨_, he2⟩ := chkDiv_some h2
  have he3 := pnSqrtOpt_some h3
  obtain ⟨_, he4⟩ := chkMul256_some h4
  obtain ⟨hle5, he5⟩ := chkSub_some h5
  subst he1 he2 he3 he4 he5
  exact ⟨hle1, hle5, hr.symm, hp.symm⟩

theorem banMath_none_of_round_lt {round : Round} {project : Project} {ban : Nat}
    (h : round.area < ban) : banMath round project ban = none := by
  unfold banMath
  cases h1 : chkSub project.area ban with
  | none => rfl
  | some area' =>
    cases h2 : chkDiv area' ONE with
    | none => simp [bind, h1, h2]
    | some dv =>
      cases h3 : pnSqrtOpt dv with
      | none => simp [bind, h1, h2, h3]
      | some sq =>
        cases h4 : chkMul256 sq 1000000 with
        | none => simp [bind, h1, h2, h3, h4]
        | some as1 =>
          have h5 : chkSub round.area ban = none := by
            unfold chkSub
            rw [if_neg]
            omega
          simp [bind, h1, h2, h3, h4, h5]

theorem banMath_none_of_project_lt {round : Round} {project : Project} {ban : Nat}
    (h : project.area < ban) : banMath round project ban = none := by
  unfold banMath
  have h1 : chkSub project.area ban = none := by
    unfold chkSub
    rw [if_neg]
    omega
  simp [bind, h1]

theorem calAmount_none_of_totalArea_zero {round : Round} {project : Project}
    (h : round.totalArea = 0) : calAmount round project = none := by
  unfold calAmount
  have h0 : chkDiv project.area ONE = some (project.area / ONE) := by
    unfold chkDiv ONE
    norm_num
  have hc : cappedVotes round (project.area / ONE) = some (project.area / ONE) := by
    unfold cappedVotes
    rw [if_neg]
    omega
  cases h2 : chkMul256 round.fund (project.area / ONE) with
  | none => simp [bind, h0, hc, h2]
  | some fv =>
    have h3 : chkDiv fv round.totalArea = none := by
      unfold chkDiv
      rw [if_pos h]
    simp [bind, h0, hc, h2, h3]

/-- C1: after the successful Vote of 4 tokens in voteSetup the project's
area equals its area_sqrt itself (the handler derives area through
checked_pow with exponent 1, the identity), not area_sqrt squared and
descaled as the claim states: both stored fields are 2 * ONE while the
squared-and-descaled value would be 4 * ONE. -/
theorem c1_vote_area_is_root_not_square :
    (applyOps exW0 voteSetup).map
        (fun w => (lookupA 21 w.projects).map (fun p => (p.area, p.areaSqrt)))
      = .ok (some (2 * ONE, 2 * ONE)) ∧
    (2 * ONE : Nat) ≠ 2 * ONE * (2 * ONE) / ONE := by
  decide

/-- C2: a Withdraw on a round whose total_area is zero, with every other
precondition satisfied, aborts with an arithmetic error: the capping block
is indeed skipped, but the payout line divides fund * votes by total_area
outside the zero guard, so checked_div returns None and the unwrap aborts —
the operation never succeeds, contrary to the claimed edge case. -/
theorem c2_withdraw_zero_total_area_aborts (w : World)
    (rk vk pk okk tk : Nat) (round : Round) (project : Project)
    (h1 : lookupA rk w.rounds = some round)
    (h2 : round.status = RoundStatus.Finished)
    (h3 : lookupA pk w.projects = some project) (h4 : project.round = rk)
    (h5 : project.withdraw = false) (h6 : project.owner = okk)
    (h7 : round.totalArea = 0) :
    processWithdraw w rk vk pk okk tk true = .error .ArithmeticError := by
  simp only [processWithdraw, h1, h2, h3, h4, h5, h6,
    calAmount_none_of_totalArea_zero h7]
  simp

/-- C2 witness: the concrete no-votes round c2W (total_area 0, a project
holding 100 raw votes) aborts its withdrawal with the arithmetic error. -/
theorem c2_withdraw_zero_total_area_aborts_witness :
    processWithdraw c2W 1 11 21 6 13 true = .error .ArithmeticError :=
  c2_withdraw_zero_total_area_aborts c2W 1 11 21 6 13 _ _ rfl rfl rfl rfl rfl rfl rfl

/-- C3: the capping block does not leave the votes measure unchanged at
ratio 1: on the concrete round c3R (ratio 1, total_area 30 over 3 projects,
top 20, min 5) a votes measure of 20 is remapped to the average 10, and the
resulting withdrawal pays 364 instead of the 681 an unchanged measure would
give. -/
theorem c3_ratio_one_capping_changes_votes :
    c3R.ratio = 1 ∧ 0 < c3R.totalArea ∧
    cappedVotes c3R 20 = some 10 ∧ (10 : Nat) ≠ 20 ∧
    (processWithdraw c3W 1 11 21 6 13 true).map (fun w => lookupA 13 w.balances)
      = .ok (some 364) ∧ (364 : Nat) ≠ 681 := by
  decide

/-- C3 amended: at ratio 1 with positive total_area (and the extrema
consistent: min ≤ average ≤ top, both below U256), the capping block is a
no-op only when top_area = min_area (the spread d is then 0); otherwise the
shrink factor s computes to 0, which passes the s < 1 test, and both
branches of the remap collapse the votes measure to the per-project average
total_area / project_number. -/
theorem c3_ratio_one_capping_collapses_to_average (r : Round) (votes : Nat)
    (h1 : r.ratio = 1) (h2 : 0 < r.totalArea) (h3 : 0 < r.projectNumber)
    (h4 : r.minArea ≤ r.totalArea / r.projectNumber)
    (h5 : r.totalArea / r.projectNumber ≤ r.topArea)
    (h6 : r.topArea < U256LIM) :
    cappedVotes r votes
      = some (if r.topArea = r.minArea then votes
              else r.totalArea / r.projectNumber) := by
  have hne : r.projectNumber ≠ 0 := Nat.pos_iff_ne_zero.mp h3
  set a := r.totalArea / r.projectNumber with hadef
  have ha : chkDiv r.totalArea r.projectNumber = some a := by
    unfold chkDiv
    rw [if_neg hne]
  have hd1 : chkSub r.topArea a = some (r.topArea - a) := by
    unfold chkSub
    rw [if_pos h5]
  have hd2 : chkSub a r.minArea = some (a - r.minArea) := by
    unfold chkSub
    rw [if_pos h4]
  have hd3 : chkMul256 (a - r.minArea) r.ratio = some (a - r.minArea) := by
    unfold chkMul256
    rw [h1, Nat.mul_one, if_pos (by omega)]
  have hd : chkAdd256 (r.topArea - a) (a - r.minArea)
      = some (r.topArea - a + (a - r.minArea)) := by
    unfold chkAdd256
    rw [if_pos (by omega)]
  unfold cappedVotes
  rw [if_pos h2]
  simp only [bind, ha, Option.some_bind, hd1, hd2, hd3, hd]
  by_cases hdz : r.topArea - a + (a - r.minArea) > 0
  · rw [if_pos hdz]
    have hr1 : chkSub r.ratio 1 = some 0 := by
      unfold chkSub
      rw [h1]
      norm_num
    have hra : chkMul256 0 a = some 0 := by
      unfold chkMul256
      rw [Nat.zero_mul, if_pos (by unfold U256LIM; positivity)]
    have hs : chkDiv 0 (r.topArea - a + (a - r.minArea)) = some 0 := by
      unfold chkDiv
      rw [if_neg (by omega)]
      norm_num
    simp only [hr1, Option.some_bind, hra, hs]
    rw [if_pos (by norm_num : (0 : Nat) < 1)]
    have hne2 : r.topArea ≠ r.minArea := by omega
    rw [if_neg hne2]
    by_cases hv : votes > a
    · rw [if_pos hv]
      have h7 : chkSub votes a = some (votes - a) := by
        unfold chkSub
        rw [if_pos (Nat.le_of_lt hv)]
      have h8 : chkMul256 0 (votes - a) = some 0 := by
        unfold chkMul256
        rw [Nat.zero_mul, if_pos (by unfold U256LIM; positivity)]
      have h9 : chkAdd256 a 0 = some a := by
        unfold chkAdd256
        rw [Nat.add_zero, if_pos (by omega)]
      simp only [h7, Option.some_bind, h8, h9]
    · rw [if_neg hv]
      push_neg at hv
      have h7 : chkSub a votes = some (a - votes) := by
        unfold chkSub
        rw [if_pos hv]
      have h8 : chkMul256 (a - votes) (1 - 0) = some (a - votes) := by
        unfold chkMul256
        rw [Nat.sub_zero, Nat.mul_one, if_pos (by omega)]
      have h9 : chkAdd256 votes (a - votes) = some (votes + (a - votes)) := by
        unfold chkAdd256
        rw [if_pos (by omega)]
      simp only [h7, Option.some_bind, h8, h9, Option.some.injEq]
      omega
  · rw [if_neg hdz]
    have heq : r.topArea = r.minArea := by omega
    rw [if_pos heq]

/-- C3 amended witness: on the concrete round c3R the amended theorem
applies and collapses an above-average votes measure of 20 to the
average 10. -/
theorem c3_ratio_one_capping_collapses_to_average_witness :
    cappedVotes c3R 20 = some 10 := by
  have h := c3_ratio_one_capping_collapses_to_average c3R 20 (by decide) (by decide)
    (by decide) (by decide) (by decide) (by decide)
  simpa using h

theorem banMath_some {round : Round} {project : Project} {ba : Nat}
    (hp : ba ≤ project.area) (hr : ba ≤ round.area)
    (hs : (project.area - ba) / ONE ≤ U128MAX * ONE)
    (hm : isqrt ((project.area - ba) / ONE * ONE) * 1000000 < U256LIM) :
    banMath round project ba
      = some ({ round with area := round.area - ba },
              { project with
                area := project.area - ba,
                areaSqrt := isqrt ((project.area - ba) / ONE * ONE) * 1000000 }) := by
  have h1 : chkSub project.area ba = some (project.area - ba) := by
    unfold chkSub
    rw [if_pos hp]
  have h2 : chkDiv (project.area - ba) ONE = some ((project.area - ba) / ONE) := by
    unfold chkDiv ONE
    norm_num
  have h3 : pnSqrtOpt ((project.area - ba) / ONE)
      = some (isqrt ((project.area - ba) / ONE * ONE)) := by
    unfold pnSqrtOpt
    rw [if_pos hs]
  have h4 : chkMul256 (isqrt ((project.area - ba) / ONE * ONE)) 1000000
      = some (isqrt ((project.area - ba) / ONE * ONE) * 1000000) := by
    unfold chkMul256
    rw [if_pos hm]
  have h5 : chkSub round.area ba = some (round.area - ba) := by
    unfold chkSub
    rw [if_pos hr]
  unfold banMath
  simp only [bind, h1, Option.some_bind, h2, h3, h4, h5]

/-- C9: with the round Ongoing and its owner signing, BanProject subtracts
ban_amount from both the project's and the round's area by checked
subtraction — succeeding with exactly those reduced areas and the project's
area_sqrt recomputed as the fixed-point integer square root of the reduced
descaled area rescaled by the fixed multiplier 10^6 — and aborts with an
arithmetic error (no state change: the operation returns an error and no
world) whenever ban_amount exceeds either current area. -/
theorem c9_ban_project_checked_subtraction (w : World) (rk okk pk ba : Nat)
    (round : Round) (project : Project)
    (h1 : lookupA rk w.rounds = some round)
    (h2 : round.status = RoundStatus.Ongoing) (h3 : okk = round.owner)
    (h4 : lookupA pk w.projects = some project) :
    (ba ≤ project.area → ba ≤ round.area →
      (project.area - ba) / ONE ≤ U128MAX * ONE →
      isqrt ((project.area - ba) / ONE * ONE) * 1000000 < U256LIM →
      processBanProject w rk okk pk true ba
        = .ok { w with
            rounds := setA rk { round with area := round.area - ba } w.rounds
            projects := setA pk { project with
              area := project.area - ba,
              areaSqrt := isqrt ((project.area - ba) / ONE * ONE) * 1000000 } w.projects }) ∧
    (project.area < ba →
      processBanProject w rk okk pk true ba = .error .ArithmeticError) ∧
    (round.area < ba →
      processBanProject w rk okk pk true ba = .error .ArithmeticError) := by
  refine ⟨fun hp hr hs hm => ?_, fun hlt => ?_, fun hlt => ?_⟩
  · simp only [processBanProject, h1, h2, h3, h4, banMath_some hp hr hs hm]
    simp
  · simp only [processBanProject, h1, h2, h3, h4, banMath_none_of_project_lt hlt]
    simp
  · simp only [processBanProject, h1, h2, h3, h4, banMath_none_of_round_lt hlt]
    simp

/-- C9 witness: on the concrete scenario c9W, banning 1 * ONE from project
21 succeeds with both areas reduced from 2 * ONE to ONE and the root
recomputed to 10^12, while banning 3 * ONE (more than either area) aborts
with the arithmetic error. -/
theorem c9_ban_project_checked_subtraction_witness :
    (processBanProject c9W 1 5 21 true ONE).map
        (fun w => ((lookupA 1 w.rounds).map Round.area,
                   (lookupA 21 w.projects).map (fun p => (p.area, p.areaSqrt))))
      = .ok (some ONE, some (ONE, 10 ^ 12)) ∧
    processBanProject c9W 1 5 21 true (3 * ONE) = .error .ArithmeticError := by
  constructor
  · rw [(c9_ban_project_checked_subtraction c9W 1 5 21 ONE _ _ rfl rfl rfl rfl).1
      (by decide) (by decide) (by decide) (by decide)]
    decide
  · exact (c9_ban_project_checked_subtraction c9W 1 5 21 (3 * ONE) _ _
      rfl rfl rfl rfl).2.1 (by decide)

theorem processEndRound_ok {w w' : World} {rk okk : Nat} {s : Bool}
    (h : processEndRound w rk okk s = .ok w') :
    ∃ round : Round, lookupA rk w.rounds = some round ∧
      round.status = RoundStatus.Ongoing ∧
      w' = { w with rounds := setA rk { round with status := .Finished } w.rounds } := by
  unfold processEndRound at h
  split at h
  · simp at h
  · next round hround =>
    split at h
    · simp at h
    · next hst =>
      split at h
      · simp at h
      · split at h
        · simp at h
        · rw [Except.ok.injEq] at h
          exact ⟨round, hround, not_not.mp hst, h.symm⟩

theorem processStartRound_ok {w w' : World} {rk okk vk ratio : Nat}
    (h : processStartRound w rk okk vk ratio = .ok w') :
    ∃ vb : Nat, lookupA rk w.rounds = none ∧ lookupA vk w.balances = some vb ∧
      w' = { w with rounds :=
        (rk, { status := .Ongoing, ratio := ratio, fund := vb, fee := 0
               projectNumber := 0, vault := vk, owner := okk, area := 0
               totalArea := 0, topArea := 0, minArea := 0, minAreaP := 0 })
          :: w.rounds } := by
  unfold processStartRound at h
  split at h
  · simp at h
  · next hnone =>
    split at h
    · simp at h
    · next vb hvb =>
      rw [Except.ok.injEq] at h
      exact ⟨vb, hnone, hvb, h.symm⟩

theorem processDonate_ok {w w' : World} {rk fk tk amount : Nat}
    (h : processDonate w rk fk tk amount = .ok w') :
    ∃ (round : Round) (fund' : Nat), lookupA rk w.rounds = some round ∧
      round.status = RoundStatus.Ongoing ∧
      w'.rounds = setA rk { round with fund := fund' } w.rounds ∧
      w'.projects = w.projects ∧ w'.voters = w.voters := by
  unfold processDonate at h
  split at h
  · simp at h
  · next round hround =>
    split at h
    · simp at h
    · next hst =>
      split at h
      · simp at h
      · next hvault =>
        split at h
        · simp at h
        · next w1 htr =>
          split at h
          · simp at h
          · next fund' hfund =>
            rw [Except.ok.injEq] at h
            obtain ⟨hr, hp, hv⟩ := transferTok_ok htr
            refine ⟨round, fund', hround, not_not.mp hst, ?_, ?_, ?_⟩
            · rw [← h]
              simpa using congrArg (fun l => setA rk { round with fund := fund' } l) hr
            · rw [← h]
              exact hp
            · rw [← h]
              exact hv

theorem processRegisterProject_ok {w w' : World} {pk rk okk : Nat}
    (h : processRegisterProject w pk rk okk = .ok w') :
    ∃ (round : Round) (n' : Nat), lookupA rk w.rounds = some round ∧
      round.status = RoundStatus.Ongoing ∧ lookupA pk w.projects = none ∧
      w' = { w with
        rounds := setA rk { round with projectNumber := n' } w.rounds
        projects := (pk, { round := rk, owner := okk, withdraw := false
                           votes := 0, area := 0, areaSqrt := 0 }) :: w.projects } := by
  unfold processRegisterProject at h
  split at h
  · simp at h
  · next round hround =>
    split at h
    · simp at h
    · next hst =>
      split at h
      · simp at h
      · next hpnone =>
        split at h
        · simp at h
        · next n' hn =>
          rw [Except.ok.injEq] at h
          exact ⟨round, n', hround, not_not.mp hst, hpnone, h.symm⟩

theorem processInitVoter_ok {w w' : World} {pk fk : Nat}
    (h : processInitVoter w pk fk = .ok w') :
    lookupA (pk, fk) w.voters = none ∧
      w' = { w with voters := ((pk, fk), Voter.mk 0 0) :: w.voters } := by
  unfold processInitVoter at h
  split at h
  · simp at h
  · split at h
    · simp at h
    · next hvnone =>
      rw [Except.ok.injEq] at h
      exact ⟨hvnone, h.symm⟩

theorem processVote_ok {w w' : World} {rk pk fk tk amt : Nat}
    (h : processVote w rk pk fk tk amt = .ok w') :
    ∃ (round : Round) (project : Project) (voter : Voter)
      (r' : Round) (p' : Project) (v' : Voter),
      lookupA rk w.rounds = some round ∧ round.status = RoundStatus.Ongoing ∧
      lookupA pk w.projects = some project ∧ project.round = rk ∧
      lookupA (pk, fk) w.voters = some voter ∧
      voteMath round project voter pk amt = some (r', p', v') ∧
      w'.rounds = setA rk r' w.rounds ∧
      w'.projects = setA pk p' w.projects ∧
      w'.voters = setA (pk, fk) v' w.voters := by
  unfold processVote at h
  split at h
  · simp at h
  · next round hround =>
    split at h
    · simp at h
    · next hst =>
      split at h
      · simp at h
      · next hvault =>
        split at h
        · simp at h
        · next project hproject =>
          split at h
          · simp at h
          · next hmatch =>
            split at h
            · simp at h
            · next voter hvoter =>
              split at h
              · simp at h
              · next w1 htr =>
                split at h
                · simp at h
                · next r' p' v' hvm =>
                  rw [Except.ok.injEq] at h
                  obtain ⟨hr, hp, hv⟩ := transferTok_ok htr
                  refine ⟨round, project, voter, r', p', v', hround, not_not.mp hst,
                    hproject, not_not.mp hmatch, hvoter, hvm, ?_, ?_, ?_⟩
                  · rw [← h]
                    simpa using congrArg (fun l => setA rk r' l) hr
                  · rw [← h]
                    simpa using congrArg (fun l => setA pk p' l) hp
                  · rw [← h]
                    simpa using congrArg (fun l => setA (pk, fk) v' l) hv

theorem processWithdraw_ok {w w' : World} {rk vk pk okk tk : Nat} {s : Bool}
    (h : processWithdraw w rk vk pk okk tk s = .ok w') :
    ∃ (round : Round) (project : Project) (amt fee fee' : Nat),
      lookupA rk w.rounds = some round ∧ round.status = RoundStatus.Finished ∧
      lookupA pk w.projects = some project ∧ project.round = rk ∧
      project.withdraw = false ∧ project.owner = okk ∧
      calAmount round project = some (amt, fee) ∧
      chkAdd64 round.fee fee = some fee' ∧
      w'.rounds = setA rk { round with fee := fee' } w.rounds ∧
      w'.projects = setA pk { project with withdraw := true } w.projects ∧
      w'.voters = w.voters := by
  unfold processWithdraw at h
  split at h
  · simp at h
  · next round hround =>
    split at h
    · simp at h
    · next hst =>
      split at h
      · simp at h
      · next project hproject =>
        split at h
        · simp at h
        · next hmatch =>
          split at h
          · simp at h
          · next hwd =>
            split at h
            · simp at h
            · next hsig =>
              split at h
              · simp at h
              · next howner =>
                split at h
                · simp at h
                · next amt fee hcal =>
                  split at h
                  · simp at h
                  · next hamt =>
                    split at h
                    · simp at h
                    · next w1 htr =>
                      split at h
                      · simp at h
                      · next hfee =>
                        split at h
                        · simp at h
                        · next fee' hadd =>
                          rw [Except.ok.injEq] at h
                          obtain ⟨hr, hp, hv⟩ := transferTok_ok htr
                          refine ⟨round, project, amt, fee, fee', hround,
                            not_not.mp hst, hproject, not_not.mp hmatch,
                            Bool.of_not_eq_true hwd, not_not.mp howner,
                            hcal, hadd, ?_, ?_, ?_⟩
                          · rw [← h]
                            simpa using congrArg
                              (fun l => setA rk { round with fee := fee' } l) hr
                          · rw [← h]
                            simpa using congrArg
                              (fun l => setA pk { project with withdraw := true } l) hp
                          · rw [← h]
                            exact hv

theorem processWithdrawFee_ok {w w' : World} {rk okk vk tk : Nat} {s : Bool}
    (h : processWithdrawFee w rk okk vk tk s = .ok w') :
    ∃ round : Round, lookupA rk w.rounds = some round ∧
      round.status = RoundStatus.Finished ∧
      w'.rounds = setA rk { round with fee := 0 } w.rounds ∧
      w'.projects = w.projects ∧ w'.voters = w.voters := by
  unfold processWithdrawFee at h
  split at h
  · simp at h
  · next round hround =>
    split at h
    · simp at h
    · next hst =>
      split at h
      · simp at h
      · next howner =>
        split at h
        · simp at h
        · next hsig =>
          split at h
          · simp at h
          · next hvault =>
            split at h
            · simp at h
            · next w1 htr =>
              rw [Except.ok.injEq] at h
              obtain ⟨hr, hp, hv⟩ := transferTok_ok htr
              refine ⟨round, hround, not_not.mp hst, ?_, ?_, ?_⟩
              · rw [← h]
                simpa using congrArg (fun l => setA rk { round with fee := 0 } l) hr
              · rw [← h]
                exact hp
              · rw [← h]
                exact hv

theorem processBanProject_ok {w w' : World} {rk okk pk ba : Nat} {s : Bool}
    (h : processBanProject w rk okk pk s ba = .ok w') :
    ∃ (round : Round) (project : Project) (r' : Round) (p' : Project),
      lookupA rk w.rounds = some round ∧ round.status = RoundStatus.Ongoing ∧
      lookupA pk w.projects = some project ∧
      banMath round project ba = some (r', p') ∧
      w' = { w with rounds := setA rk r' w.rounds
                    projects := setA pk p' w.projects } := by
  unfold processBanProject at h
  split at h
  · simp at h
  · next round hround =>
    split at h
    · simp at h
    · next hst =>
      split at h
      · simp at h
      · next howner =>
        split at h
        · simp at h
        · next hsig =>
          split at h
          · simp at h
          · next project hproject =>
            split at h
            · simp at h
            · next r' p' hbm =>
              rw [Except.ok.injEq] at h
              exact ⟨round, project, r', p', hround, not_not.mp hst, hproject,
                hbm, h.symm⟩

/-- C8: with its preconditions met (round Finished, caller is the round
owner and signed, supplied vault is the round's vault), WithdrawFee
transfers exactly the accumulated round.fee out of the vault into the
destination and resets the round's fee to 0; when the vault balance cannot
cover the fee the transfer fails and the whole operation aborts as an
error, leaving the fee unchanged (the atomic result carries no mutated
world). -/
theorem c8_withdraw_fee_exact_transfer_and_reset (w : World) (rk okk vk tk : Nat)
    (round : Round) (vb tb : Nat)
    (h1 : lookupA rk w.rounds = some round)
    (h2 : round.status = RoundStatus.Finished)
    (h3 : okk = round.owner) (h4 : vk = round.vault) (h5 : vk ≠ tk)
    (hv : lookupA vk w.balances = some vb) :
    (round.fee ≤ vb → lookupA tk w.balances = some tb →
      tb + round.fee < U64LIM →
      processWithdrawFee w rk okk vk tk true
        = .ok { w with
            balances := setA tk (tb + round.fee) (setA vk (vb - round.fee) w.balances)
            rounds := setA rk { round with fee := 0 } w.rounds } ∧
      lookupA vk (setA tk (tb + round.fee) (setA vk (vb - round.fee) w.balances))
        = some (vb - round.fee) ∧
      lookupA tk (setA tk (tb + round.fee) (setA vk (vb - round.fee) w.balances))
        = some (tb + round.fee) ∧
      lookupA rk (setA rk { round with fee := 0 } w.rounds)
        = some { round with fee := 0 }) ∧
    (vb < round.fee →
      processWithdrawFee w rk okk vk tk true = .error .TransferFailed) := by
  subst h3 h4
  constructor
  · intro hfee ht htb
    have htr : transferTok w round.vault tk round.fee
        = .ok { w with
            balances := setA tk (tb + round.fee)
              (setA round.vault (vb - round.fee) w.balances) } := by
      unfold transferTok
      simp only [hv]
      rw [if_neg (by omega)]
      simp only [lookupA_setA_ne (Ne.symm h5), ht]
      rw [if_pos htb]
    refine ⟨?_, ?_, ?_, ?_⟩
    · simp only [processWithdrawFee, h1, h2, htr]
      simp
    · rw [lookupA_setA_ne h5, lookupA_setA_self, hv]
      rfl
    · rw [lookupA_setA_self]
      rw [lookupA_setA_ne (Ne.symm h5), ht]
      rfl
    · rw [lookupA_setA_self, h1]
      rfl
  · intro hlt
    have htr : transferTok w round.vault tk round.fee = .error .TransferFailed := by
      unfold transferTok
      simp only [hv]
      rw [if_pos hlt]
    simp only [processWithdrawFee, h1, h2, htr]
    simp

/-- C8 witness: on the concrete round c8W with fee 7 and vault balance 50,
the fee withdrawal moves exactly 7 from vault 11 to destination 13 and the
stored fee returns to 0. -/
theorem c8_withdraw_fee_exact_transfer_and_reset_witness :
    (processWithdrawFee c8W 1 5 11 13 true).map
        (fun w => (lookupA 11 w.balances, lookupA 13 w.balances,
                   (lookupA 1 w.rounds).map Round.fee))
      = .ok (some 43, some 7, some 0) := by
  rw [((c8_withdraw_fee_exact_transfer_and_reset c8W 1 5 11 13 _ 50 0
    rfl rfl rfl rfl (by decide) rfl).1 (by decide) rfl (by decide)).1]
  decide

/-- C7: a Withdraw on a project whose withdraw flag is already set fails
with ProjectAlreadyWithdraw (the atomic error result carries no state
change); every successful Withdraw leaves the project's flag true; hence a
second Withdraw of the same project after a successful one fails with
ProjectAlreadyWithdraw whatever accounts and signature the second call
supplies. -/
theorem c7_withdraw_is_one_shot (w : World) (rk vk pk okk tk : Nat) (s : Bool) :
    (∀ (round : Round) (project : Project),
      lookupA rk w.rounds = some round → round.status = RoundStatus.Finished →
      lookupA pk w.projects = some project → project.round = rk →
      project.withdraw = true →
      processWithdraw w rk vk pk okk tk s = .error .ProjectAlreadyWithdraw) ∧
    (∀ w', processWithdraw w rk vk pk okk tk s = .ok w' →
      (lookupA pk w'.projects).map Project.withdraw = some true) ∧
    (∀ w' vk' okk' tk' s', processWithdraw w rk vk pk okk tk s = .ok w' →
      processWithdraw w' rk vk' pk okk' tk' s' = .error .ProjectAlreadyWithdraw) := by
  refine ⟨?_, ?_, ?_⟩
  · intro round project h1 h2 h3 h4 h5
    simp only [processWithdraw, h1, h2, h3, h4, h5]
    simp
  · intro w' h
    obtain ⟨round, project, amt, fee, fee', h1, h2, h3, h4, h5, h6, h7, h8, hr, hp, hv⟩ :=
      processWithdraw_ok h
    rw [hp, lookupA_setA_self, h3]
    rfl
  · intro w' vk' okk' tk' s' h
    obtain ⟨round, project, amt, fee, fee', h1, h2, h3, h4, h5, h6, h7, h8, hr, hp, hv⟩ :=
      processWithdraw_ok h
    have hr' : lookupA rk w'.rounds = some { round with fee := fee' } := by
      rw [hr, lookupA_setA_self, h1]
      rfl
    have hp' : lookupA pk w'.projects = some { project with withdraw := true } := by
      rw [hp, lookupA_setA_self, h3]
      rfl
    simp only [processWithdraw, hr', hp', h2, h4]
    simp

/-- C7 witness: on the concrete scenario c7W, the first withdrawal of
project 21 succeeds (yielding c7Res) and the second withdrawal fails with
ProjectAlreadyWithdraw. -/
theorem c7_withdraw_is_one_shot_witness :
    processWithdraw c7Res 1 11 21 6 13 true = .error .ProjectAlreadyWithdraw :=
  (c7_withdraw_is_one_shot c7W 1 11 21 6 13 true).2.2 c7Res 11 6 13 true (by decide)

theorem roundStatus_eq (w : World) (k : Nat) :
    roundStatus w k = ((lookupA k w.rounds).map Round.status).getD .Uninitialized := by
  unfold roundStatus
  cases h : lookupA k w.rounds <;> simp [h]

theorem lookupA_status_setA {l : List (Nat × Round)} {rk : Nat} {round : Round}
    (r' : Round) (h1 : lookupA rk l = some round) (hs : r'.status = round.status)
    (k : Nat) :
    (lookupA k (setA rk r' l)).map Round.status
      = (lookupA k l).map Round.status := by
  by_cases hk : k = rk
  · subst hk
    rw [lookupA_setA_self, h1]
    simp [hs]
  · rw [lookupA_setA_ne hk]

/-- C6: round status is monotone along Uninitialized → Ongoing → Finished
and gates the operations: on a Finished round, Vote, RegisterProject,
BanProject, EndRound and Donate all fail with the status error (the atomic
error result carries no state change); StartRound fails with
AlreadyInitialized on any round that is already initialized; and no
successful operation ever lowers any round's status rank. -/
theorem c6_status_monotone_and_finished_gates :
    (∀ (w : World) (rk : Nat) (round : Round),
      lookupA rk w.rounds = some round → round.status = RoundStatus.Finished →
      (∀ pk fk tk amt, applyOp w (.vote rk pk fk tk amt) = .error .RoundStatusError) ∧
      (∀ pk ok2, applyOp w (.registerProject pk rk ok2) = .error .RoundStatusError) ∧
      (∀ ok2 pk s ba, applyOp w (.banProject rk ok2 pk s ba) = .error .RoundStatusError) ∧
      (∀ ok2 s, applyOp w (.endRound rk ok2 s) = .error .RoundStatusError) ∧
      (∀ fk tk amt, applyOp w (.donate rk fk tk amt) = .error .RoundStatusError)) ∧
    (∀ (w : World) (rk ok2 vk2 rt : Nat) (round : Round),
      lookupA rk w.rounds = some round →
      applyOp w (.startRound rk ok2 vk2 rt) = .error .AlreadyInitialized) ∧
    (∀ (w : World) (op : Op) (w' : World) (k : Nat), applyOp w op = .ok w' →
      statusRank (roundStatus w k) ≤ statusRank (roundStatus w' k)) := by
  refine ⟨?_, ?_, ?_⟩
  · intro w rk round h1 h2
    refine ⟨fun pk fk tk amt => ?_, fun pk ok2 => ?_, fun ok2 pk s ba => ?_,
      fun ok2 s => ?_, fun fk tk amt => ?_⟩
    · simp only [applyOp, processVote, h1, h2]
      simp
    · simp only [applyOp, processRegisterProject, h1, h2]
      simp
    · simp only [applyOp, processBanProject, h1, h2]
      simp
    · simp only [applyOp, processEndRound, h1, h2]
      simp
    · simp only [applyOp, processDonate, h1, h2]
      simp
  · intro w rk ok2 vk2 rt round h1
    simp only [applyOp, processStartRound, h1]
  · intro w op w' k h
    cases op with
    | startRound rk ok2 vk2 rt =>
      obtain ⟨vb, hnone, hvb, hw⟩ := processStartRound_ok h
      subst hw
      by_cases hk : rk = k
      · subst hk
        rw [roundStatus_eq w rk, hnone]
        exact Nat.zero_le _
      · rw [roundStatus_eq, roundStatus_eq]
        simp only [lookupA_cons', if_neg hk]
        exact Nat.le_refl _
    | donate rk fk tk amt =>
      obtain ⟨round, fund', h1, hst, hr, hp, hv⟩ := processDonate_ok h
      rw [roundStatus_eq, roundStatus_eq, hr,
        lookupA_status_setA { round with fund := fund' } h1 rfl]
    | registerProject pk rk ok2 =>
      obtain ⟨round, n', h1, hst, hpn, hw⟩ := processRegisterProject_ok h
      subst hw
      rw [roundStatus_eq, roundStatus_eq]
      simp only
      rw [lookupA_status_setA { round with projectNumber := n' } h1 rfl]
    | initVoter pk fk =>
      obtain ⟨hvn, hw⟩ := processInitVoter_ok h
      subst hw
      exact Nat.le_refl _
    | vote rk pk fk tk amt =>
      obtain ⟨round, project, voter, r', p', v', h1, hst, h3, h4, h5, hvm, hr, hp, hv⟩ :=
        processVote_ok h
      rw [roundStatus_eq, roundStatus_eq, hr,
        lookupA_status_setA r' h1 (voteMath_ok hvm).1]
    | withdraw rk vk pk okk tk s =>
      obtain ⟨round, project, amt, fee, fee', h1, h2, h3, h4, h5, h6, h7, h8, hr, hp, hv⟩ :=
        processWithdraw_ok h
      rw [roundStatus_eq, roundStatus_eq, hr,
        lookupA_status_setA { round with fee := fee' } h1 rfl]
    | endRound rk ok2 s =>
      obtain ⟨round, h1, hst, hw⟩ := processEndRound_ok h
      have hr : w'.rounds
          = setA rk { round with status := RoundStatus.Finished } w.rounds := by
        rw [hw]
      by_cases hk : k = rk
      · subst hk
        rw [roundStatus_eq, roundStatus_eq, hr, lookupA_setA_self, h1]
        simp [hst, statusRank]
      · rw [roundStatus_eq, roundStatus_eq, hr, lookupA_setA_ne hk]
    | withdrawFee rk ok2 vk tk s =>
      obtain ⟨round, h1, hst, hr, hp, hv⟩ := processWithdrawFee_ok h
      rw [roundStatus_eq, roundStatus_eq, hr,
        lookupA_status_setA { round with fee := 0 } h1 rfl]
    | banProject rk ok2 pk s ba =>
      obtain ⟨round, project, r', p', h1, hst, h3, hbm, hw⟩ := processBanProject_ok h
      subst hw
      rw [roundStatus_eq, roundStatus_eq]
      simp only
      rw [lookupA_status_setA r' h1 (by rw [(banMath_ok hbm).2.2.1])]

/-- C6 witness: on the concrete worlds c6W (round 1 Finished, round 2
Ongoing), every gated operation fails with the status error, re-starting
round 1 fails as already initialized, and the successful EndRound of round
2 does not lower its status rank. -/
theorem c6_status_monotone_and_finished_gates_witness :
    applyOp c6W (Op.vote 1 21 31 11 4) = .error .RoundStatusError ∧
    applyOp c6W (Op.registerProject 21 1 6) = .error .RoundStatusError ∧
    applyOp c6W (Op.banProject 1 5 21 true 0) = .error .RoundStatusError ∧
    applyOp c6W (Op.endRound 1 5 true) = .error .RoundStatusError ∧
    applyOp c6W (Op.donate 1 31 11 4) = .error .RoundStatusError ∧
    applyOp c6W (Op.startRound 1 5 11 2) = .error .AlreadyInitialized ∧
    statusRank (roundStatus c6W 2) ≤ statusRank (roundStatus c6Res 2) := by
  obtain ⟨g1, g2, g3⟩ := c6_status_monotone_and_finished_gates
  obtain ⟨a1, a2, a3, a4, a5⟩ := g1 c6W 1 _ rfl rfl
  exact ⟨a1 21 31 11 4, a2 21 6, a3 5 21 true 0, a4 5 true, a5 31 11 4,
    g2 c6W 1 5 11 2 _ rfl, g3 c6W (Op.endRound 2 5 true) c6Res 2 (by decide)⟩

/-- C10: BanProject never checks that the project belongs to the round: in
the reachable two-round state of exSetup, banning project 22 (whose stored
round is 2) through round 1 succeeds, while a Vote and a Withdraw naming a
project of another round are always rejected with RoundMismatch. -/
theorem c10_ban_ignores_project_round_binding :
    ((applyOps exW0 exSetup).map
        (fun w => ((applyOp w exBan).toOption.isSome,
                   (lookupA 22 w.projects).map Project.round))
      = .ok (true, some 2) ∧ (2 : Nat) ≠ 1) ∧
    (∀ (w : World) (rk pk fk tk amt : Nat) (round : Round) (project : Project),
      lookupA rk w.rounds = some round → round.status = RoundStatus.Ongoing →
      tk = round.vault → lookupA pk w.projects = some project →
      project.round ≠ rk →
      applyOp w (.vote rk pk fk tk amt) = .error .RoundMismatch) ∧
    (∀ (w : World) (rk vk pk okk tk : Nat) (s : Bool) (round : Round)
      (project : Project),
      lookupA rk w.rounds = some round → round.status = RoundStatus.Finished →
      lookupA pk w.projects = some project → project.round ≠ rk →
      applyOp w (.withdraw rk vk pk okk tk s) = .error .RoundMismatch) := by
  refine ⟨⟨by decide, by decide⟩, ?_, ?_⟩
  · intro w rk pk fk tk amt round project h1 h2 h3 h4 h5
    simp only [applyOp, processVote, h1, h2, h3, h4, h5]
    simp
    exact fun hh => absurd hh h5
  · intro w rk vk pk okk tk s round project h1 h2 h3 h4
    simp only [applyOp, processWithdraw, h1, h2, h3, h4]
    simp
    exact fun hh => absurd hh h4

/-- C10 witness: in the concrete world c10W, voting on project 21 (stored
round 77) through round 1 fails with RoundMismatch, and withdrawing it
through round 2 fails with RoundMismatch. -/
theorem c10_ban_ignores_project_round_binding_witness :
    applyOp c10W (.vote 1 21 31 11 4) = .error .RoundMismatch ∧
    applyOp c10W (.withdraw 2 12 21 6 13 true) = .error .RoundMismatch := by
  obtain ⟨hA, hB, hC⟩ := c10_ban_ignores_project_round_binding
  exact ⟨hB c10W 1 21 31 11 4 _ _ rfl rfl rfl rfl (by decide),
         hC c10W 2 12 21 6 13 true _ _ rfl rfl rfl (by decide)⟩

theorem isqrt_zero : isqrt 0 = 0 := rfl

theorem sqrtInv_step {pk : Nat} {w w' : World} {op : Op} (hInv : SqrtInv pk w)
    (hop : isVoteOpOn pk op = true) (h : applyOp w op = .ok w') : SqrtInv pk w' := by
  obtain ⟨hnd, hvoters, hprojects⟩ := hInv
  cases op with
  | startRound rk ok2 vk2 rt => simp [isVoteOpOn] at hop
  | donate rk fk tk amt => simp [isVoteOpOn] at hop
  | registerProject pk2 rk ok2 => simp [isVoteOpOn] at hop
  | withdraw rk vk pk2 okk tk s => simp [isVoteOpOn] at hop
  | endRound rk ok2 s => simp [isVoteOpOn] at hop
  | withdrawFee rk ok2 vk tk s => simp [isVoteOpOn] at hop
  | banProject rk ok2 pk2 s ba => simp [isVoteOpOn] at hop
  | initVoter pk2 fk =>
    have hpk : pk = pk2 := by
      exact (by simpa [isVoteOpOn] using hop : pk2 = pk).symm
    subst hpk
    obtain ⟨hvn, hw⟩ := processInitVoter_ok h
    subst hw
    refine ⟨nodupKeys_cons _ hvn hnd, ?_, ?_⟩
    · intro e he hpke
      rcases List.mem_cons.mp he with h0 | h0
      · rw [h0]
        simp [isqrt_zero]
      · exact hvoters e h0 hpke
    · intro e he hpke
      have hold := hprojects e he hpke
      unfold sumVoterSqrt at hold ⊢
      rw [sumBy_cons]
      simpa [isqrt_zero] using hold
  | vote rk pk2 fk tk amt =>
    have hpk : pk = pk2 := by
      exact (by simpa [isVoteOpOn] using hop : pk2 = pk).symm
    subst hpk
    obtain ⟨round, project, voter, r', p', v', h1, hst, h3, h4, h5, hvm, hr, hp, hv⟩ :=
      processVote_ok h
    obtain ⟨_, _, _, _, _, _, _, _, _, _, _, hv'votes, hv'sqrt, hle, hp'sqrt, hp'area,
      _, _⟩ := voteMath_ok hvm
    have hvmem : ((pk, fk), voter) ∈ w.voters := lookupA_mem h5
    have hvsq : voter.votesSqrt = isqrt (voter.votes * ONE * ONE) :=
      hvoters ((pk, fk), voter) hvmem rfl
    have hpmem : (pk, project) ∈ w.projects := lookupA_mem h3
    have hpsum : project.areaSqrt = sumVoterSqrt pk w.voters :=
      hprojects (pk, project) hpmem rfl
    have hsum := sumBy_setA
      (f := fun e => if e.1.1 = pk then isqrt (e.2.votes * ONE * ONE) else 0)
      v' hnd hvmem
    simp at hsum
    refine ⟨?_, ?_, ?_⟩
    · rw [hv]
      exact nodupKeys_setA _ _ hnd
    · intro e he hpke
      rw [hv] at he
      rcases mem_setA he with ⟨hk1, hk2⟩ | ⟨hk1, hk2⟩
      · rw [hk2, hv'sqrt, hv'votes]
      · exact hvoters e hk2 hpke
    · intro e he hpke
      rw [hp] at he
      rcases mem_setA he with ⟨hk1, hk2⟩ | ⟨hk1, hk2⟩
      · rw [hk2, hv]
        unfold sumVoterSqrt
        rw [hp'sqrt]
        rw [hvsq] at hle
        unfold sumVoterSqrt at hpsum
        rw [hpsum] at hle
        rw [hpsum]
        rw [hv'votes] at hsum
        omega
      · exact absurd hpke hk1

/-- C4: along any successful sequence of Vote operations directed at one
project pk (interleaved with InitVoter registrations of its voters, no
BanProject), the root-sum invariant is preserved: every stored votes_sqrt
is the fixed-point integer square root of that voter's cumulative
contribution, and the project's area_sqrt equals the fixed-point sum of
those roots over all its voters — the non-incremental recomputation — so
the incremental update is order-independent: area_sqrt depends only on each
voter's final cumulative contribution. -/
theorem c4_incremental_root_sum_order_independent (pk : Nat) :
    ∀ (ops : List Op) (w w' : World), SqrtInv pk w →
      (∀ op ∈ ops, isVoteOpOn pk op = true) →
      applyOps w ops = .ok w' → SqrtInv pk w'
  | [], w, w', hInv, _, h => by
    unfold applyOps at h
    rw [Except.ok.injEq] at h
    rw [← h]
    exact hInv
  | op :: rest, w, w', hInv, hops, h => by
    unfold applyOps at h
    cases ha : applyOp w op with
    | error e =>
      rw [ha] at h
      simp at h
    | ok w1 =>
      simp only [ha] at h
      exact c4_incremental_root_sum_order_independent pk rest w1 w'
        (sqrtInv_step hInv (hops op (List.mem_cons_self op rest)) ha)
        (fun o ho => hops o (List.mem_cons_of_mem _ ho)) h

/-- C4 witness: from the ready world c4W0 (fresh project 21 with one
registered voter), the vote of 9 tokens yields c4Res, and the root-sum
invariant holds there: area_sqrt 21 equals the summed fixed-point roots of
its voters' cumulative contributions. -/
theorem c4_incremental_root_sum_order_independent_witness : SqrtInv 21 c4Res :=
  c4_incremental_root_sum_order_independent 21 c4Ops c4W0 c4Res
    (by unfold SqrtInv NodupKeys sumVoterSqrt sumBy; decide) (by decide) (by decide)

theorem lookupA_setA_isSome {κ α : Type} [DecidableEq κ] (k k' : κ) (v : α)
    (l : List (κ × α)) :
    (lookupA k (setA k' v l)).isSome = (lookupA k l).isSome := by
  by_cases hk : k = k'
  · subst hk
    rw [lookupA_setA_self]
    cases lookupA k l <;> rfl
  · rw [lookupA_setA_ne hk]

theorem sumProjArea_setA_delta {ps : List (Nat × Project)} {pk : Nat}
    {project : Project} (p' : Project) (hnd : NodupKeys ps)
    (hmem : (pk, project) ∈ ps) (k : Nat) :
    sumProjArea k (setA pk p' ps) + (if project.round = k then project.area else 0)
      = sumProjArea k ps + (if p'.round = k then p'.area else 0) := by
  have hsum := sumBy_setA (f := fun x => if x.2.round = k then x.2.area else 0)
    p' hnd hmem
  unfold sumProjArea
  exact hsum

theorem sumProjArea_setA_eq {ps : List (Nat × Project)} {pk : Nat}
    {project : Project} (p' : Project) (hnd : NodupKeys ps)
    (hmem : (pk, project) ∈ ps) (k : Nat)
    (hf : (if p'.round = k then p'.area else 0)
        = (if project.round = k then project.area else 0)) :
    sumProjArea k (setA pk p' ps) = sumProjArea k ps := by
  have hsum := sumProjArea_setA_delta p' hnd hmem k
  omega

theorem sumProjArea_ge {ps : List (Nat × Project)} {pk k : Nat}
    {project : Project} (hmem : (pk, project) ∈ ps) (hfr : project.round = k) :
    project.area ≤ sumProjArea k ps := by
  have hb := sumBy_le_of_mem (f := fun x => if x.2.round = k then x.2.area else 0) hmem
  have hb2 : (if project.round = k then project.area else 0)
      ≤ sumBy (fun x => if x.2.round = k then x.2.area else 0) ps := hb
  rw [if_pos hfr] at hb2
  unfold sumProjArea
  exact hb2

theorem worldInv_step {w w' : World} {op : Op} (hInv : WorldInv w)
    (hgood : goodOp w op = true) (h : applyOp w op = .ok w') : WorldInv w' := by
  obtain ⟨hndr, hndp, href, harea⟩ := hInv
  cases op with
  | startRound rk ok2 vk2 rt =>
    obtain ⟨vb, hnone, hvb, hw⟩ := processStartRound_ok h
    subst hw
    refine ⟨nodupKeys_cons _ hnone hndr, hndp, ?_, ?_⟩
    · intro e he
      simp only [lookupA_cons']
      by_cases hk : rk = e.2.round
      · rw [if_pos hk]
        rfl
      · rw [if_neg hk]
        exact href e he
    · intro e he
      rcases List.mem_cons.mp he with h0 | h0
      · rw [h0]
        refine (sumProjArea_eq_zero ?_).symm
        intro p hp hpr
        have hsome := href p hp
        rw [hpr, hnone] at hsome
        simp at hsome
      · exact harea e h0
  | donate rk fk tk amt =>
    obtain ⟨round, fund', h1, hst, hr, hp, hv⟩ := processDonate_ok h
    refine ⟨?_, ?_, ?_, ?_⟩
    · rw [hr]
      exact nodupKeys_setA _ _ hndr
    · rw [hp]
      exact hndp
    · intro e he
      rw [hp] at he
      rw [hr, lookupA_setA_isSome]
      exact href e he
    · intro e he
      rw [hr] at he
      rw [hp]
      rcases mem_setA he with ⟨hk1, hk2⟩ | ⟨hk1, hk2⟩
      · rw [hk2, hk1]
        show round.area = sumProjArea rk w.projects
        exact harea (rk, round) (lookupA_mem h1)
      · exact harea e hk2
  | registerProject pk rk ok2 =>
    obtain ⟨round, n', h1, hst, hpn, hw⟩ := processRegisterProject_ok h
    subst hw
    have hconsSum : ∀ k : Nat,
        sumProjArea k ((pk, ({ round := rk, owner := ok2, withdraw := false
                               votes := 0, area := 0, areaSqrt := 0 } : Project))
          :: w.projects) = sumProjArea k w.projects := by
      intro k
      unfold sumProjArea
      rw [sumBy_cons]
      simp
    refine ⟨nodupKeys_setA _ _ hndr, nodupKeys_cons _ hpn hndp, ?_, ?_⟩
    · intro e he
      rcases List.mem_cons.mp he with h0 | h0
      · rw [h0]
        show (lookupA rk (setA rk { round with projectNumber := n' } w.rounds)).isSome
          = true
        rw [lookupA_setA_self, h1]
        rfl
      · rw [lookupA_setA_isSome]
        exact href e h0
    · intro e he
      rw [hconsSum]
      rcases mem_setA he with ⟨hk1, hk2⟩ | ⟨hk1, hk2⟩
      · rw [hk2, hk1]
        show round.area = sumProjArea rk w.projects
        exact harea (rk, round) (lookupA_mem h1)
      · exact harea e hk2
  | initVoter pk fk =>
    obtain ⟨hvn, hw⟩ := processInitVoter_ok h
    subst hw
    exact ⟨hndr, hndp, href, harea⟩
  | vote rk pk fk tk amt =>
    obtain ⟨round, project, voter, r', p', v', h1, hst, h3, h4, h5, hvm, hr, hp, hv⟩ :=
      processVote_ok h
    obtain ⟨_, _, _, _, _, _, _, hp'round, _, _, _, _, _, _, _, _, hple, hr'area⟩ :=
      voteMath_ok hvm
    have hpmem : (pk, project) ∈ w.projects := lookupA_mem h3
    have hrmem : (rk, round) ∈ w.rounds := lookupA_mem h1
    refine ⟨?_, ?_, ?_, ?_⟩
    · rw [hr]
      exact nodupKeys_setA _ _ hndr
    · rw [hp]
      exact nodupKeys_setA _ _ hndp
    · intro e he
      rw [hp] at he
      rw [hr, lookupA_setA_isSome]
      rcases mem_setA he with ⟨hk1, hk2⟩ | ⟨hk1, hk2⟩
      · rw [hk2, hp'round, h4, h1]
        rfl
      · exact href e hk2
    · intro e he
      rw [hr] at he
      rw [hp]
      rcases mem_setA he with ⟨hk1, hk2⟩ | ⟨hk1, hk2⟩
      · rw [hk2, hk1]
        have hdelta := sumProjArea_setA_delta p' hndp hpmem rk
        rw [if_pos h4, if_pos (by rw [hp'round, h4])] at hdelta
        have hS : round.area = sumProjArea rk w.projects := harea (rk, round) hrmem
        rw [hr'area]
        omega
      · have heq := sumProjArea_setA_eq p' hndp hpmem e.1
          (by rw [hp'round, h4, if_neg (fun hh => hk1 hh.symm),
                if_neg (fun hh => hk1 hh.symm)])
        rw [heq]
        exact harea e hk2
  | withdraw rk vk pk okk tk s =>
    obtain ⟨round, project, amt, fee, fee', h1, h2, h3, h4, h5, h6, h7, h8, hr, hp, hv⟩ :=
      processWithdraw_ok h
    have hpmem : (pk, project) ∈ w.projects := lookupA_mem h3
    have hsame : ∀ k : Nat,
        sumProjArea k (setA pk { project with withdraw := true } w.projects)
          = sumProjArea k w.projects := fun k =>
      sumProjArea_setA_eq _ hndp hpmem k rfl
    refine ⟨?_, ?_, ?_, ?_⟩
    · rw [hr]
      exact nodupKeys_setA _ _ hndr
    · rw [hp]
      exact nodupKeys_setA _ _ hndp
    · intro e he
      rw [hp] at he
      rw [hr, lookupA_setA_isSome]
      rcases mem_setA he with ⟨hk1, hk2⟩ | ⟨hk1, hk2⟩
      · rw [hk2]
        show (lookupA project.round w.rounds).isSome = true
        rw [h4, h1]
        rfl
      · exact href e hk2
    · intro e he
      rw [hr] at he
      rw [hp, hsame]
      rcases mem_setA he with ⟨hk1, hk2⟩ | ⟨hk1, hk2⟩
      · rw [hk2, hk1]
        show round.area = sumProjArea rk w.projects
        exact harea (rk, round) (lookupA_mem h1)
      · exact harea e hk2
  | endRound rk ok2 s =>
    obtain ⟨round, h1, hst, hw⟩ := processEndRound_ok h
    subst hw
    refine ⟨nodupKeys_setA _ _ hndr, hndp, ?_, ?_⟩
    · intro e he
      rw [lookupA_setA_isSome]
      exact href e he
    · intro e he
      rcases mem_setA he with ⟨hk1, hk2⟩ | ⟨hk1, hk2⟩
      · rw [hk2, hk1]
        show round.area = sumProjArea rk w.projects
        exact harea (rk, round) (lookupA_mem h1)
      · exact harea e hk2
  | withdrawFee rk ok2 vk tk s =>
    obtain ⟨round, h1, hst, hr, hp, hv⟩ := processWithdrawFee_ok h
    refine ⟨?_, ?_, ?_, ?_⟩
    · rw [hr]
      exact nodupKeys_setA _ _ hndr
    · rw [hp]
      exact hndp
    · intro e he
      rw [hp] at he
      rw [hr, lookupA_setA_isSome]
      exact href e he
    · intro e he
      rw [hr] at he
      rw [hp]
      rcases mem_setA he with ⟨hk1, hk2⟩ | ⟨hk1, hk2⟩
      · rw [hk2, hk1]
        show round.area = sumProjArea rk w.projects
        exact harea (rk, round) (lookupA_mem h1)
      · exact harea e hk2
  | banProject rk ok2 pk s ba =>
    obtain ⟨round, project, r', p', h1, hst, h3, hbm, hw⟩ := processBanProject_ok h
    subst hw
    have hpr : project.round = rk := by
      unfold goodOp at hgood
      simp [h3] at hgood
      exact hgood
    obtain ⟨hble1, hble2, hr'eq, hp'eq⟩ := banMath_ok hbm
    have hpmem : (pk, project) ∈ w.projects := lookupA_mem h3
    have hrmem : (rk, round) ∈ w.rounds := lookupA_mem h1
    have hp'round : p'.round = project.round := by
      rw [hp'eq]
    have hp'area : p'.area = project.area - ba := by
      rw [hp'eq]
    have hr'area : r'.area = round.area - ba := by
      rw [hr'eq]
    refine ⟨nodupKeys_setA _ _ hndr, nodupKeys_setA _ _ hndp, ?_, ?_⟩
    · intro e he
      rw [lookupA_setA_isSome]
      rcases mem_setA he with ⟨hk1, hk2⟩ | ⟨hk1, hk2⟩
      · rw [hk2, hp'round, hpr, h1]
        rfl
      · exact href e hk2
    · intro e he
      rcases mem_setA he with ⟨hk1, hk2⟩ | ⟨hk1, hk2⟩
      · rw [hk2, hk1]
        show r'.area = sumProjArea rk (setA pk p' w.projects)
        have hdelta := sumProjArea_setA_delta p' hndp hpmem rk
        rw [if_pos hpr, if_pos (by rw [hp'round, hpr])] at hdelta
        have hS : round.area = sumProjArea rk w.projects := harea (rk, round) hrmem
        have hbound : project.area ≤ sumProjArea rk w.projects :=
          sumProjArea_ge hpmem hpr
        rw [hr'area, hp'area] at *
        omega
      · have heq := sumProjArea_setA_eq p' hndp hpmem e.1
          (by rw [hp'round, hpr, if_neg (fun hh => hk1 hh.symm),
                if_neg (fun hh => hk1 hh.symm)])
        rw [heq]
        exact harea e hk2

/-- C5 amended: in every state reachable from an empty program state by the
nine operations in which each BanProject names a project belonging to the
round it mutates, every round's stored area equals the sum of the areas of
the projects belonging to it.  (The unrestricted claim fails: a BanProject
may name a project of another round, see the counterexample.) -/
theorem c5_round_area_equals_project_area_sum (bal : List (Nat × Nat)) (w : World)
    (h : ReachG (initWorld bal) w) : AreaInv w := by
  have hInv : WorldInv w := by
    induction h with
    | refl =>
      refine ⟨?_, ?_, ?_, ?_⟩
      · simp [NodupKeys, initWorld]
      · simp [NodupKeys, initWorld]
      · intro e he
        simp [initWorld] at he
      · intro e he
        simp [initWorld] at he
    | step hreach hgood happly ih =>
      exact worldInv_step ih hgood happly
  exact hInv.2.2.2

/-- C5 counterexample: the claim as stated is false — after the reachable
two-round trace exSetup, the BanProject exBan names round 1 but project 22
of round 2 and succeeds, leaving round 1 with stored area 10^12 while the
summed area of round 1's projects is still 2 * 10^12. -/
theorem c5_cross_round_ban_breaks_area_sum :
    (applyOps exW0 (exSetup ++ [exBan])).map
        (fun w => ((lookupA 1 w.rounds).map Round.area, sumProjArea 1 w.projects))
      = .ok (some (10 ^ 12), 2 * 10 ^ 12) ∧
    (10 ^ 12 : Nat) ≠ 2 * 10 ^ 12 := by
  constructor
  · unfold sumProjArea sumBy
    decide
  · decide

/-- C5 witness: the state c5W2 obtained by starting round 1 and registering
project 21 (a good-ban reachable state) satisfies the area-sum invariant. -/
theorem c5_round_area_equals_project_area_sum_witness : AreaInv c5W2 := by
  have h1 : applyOp exW0 (Op.startRound 1 5 11 2) = .ok c5W1 := by decide
  have g1 : goodOp exW0 (Op.startRound 1 5 11 2) = true := by decide
  have h2 : applyOp c5W1 (Op.registerProject 21 1 6) = .ok c5W2 := by decide
  have g2 : goodOp c5W1 (Op.registerProject 21 1 6) = true := by decide
  exact c5_round_area_equals_project_area_sum exBal c5W2
    (ReachG.step (ReachG.step (ReachG.refl exW0) g1 h1) g2 h2)
